import Mathlib

/-!
Verification development for the `token-bucket-limiter-redis` package.

The package exposes two rate limiters:

* `RateLimiterTokenBucket` (src/RateLimiterTokenBucket.js) — an in-memory
  token-bucket limiter holding per-key buckets in a `Map`, with an optional
  post-denial lock (`lockDuration`) and an optional fixed-window abuse guard
  (`inMemoryBlockOnConsumed` / `inMemoryBlockDuration`).
* `RateLimiterTokenBucketRedis` (src/RateLimiterTokenBucketRedis.js) — a
  distributed limiter that runs a Lua script atomically against Redis, with
  the same in-memory abuse guard in front, and an optional local "insurance"
  limiter used when Redis is unreachable or the script call throws.

This file is a shallow embedding of those two files.  Timestamps and token
counts are modelled as `Int` (JavaScript numbers used integrally by the code;
`Math.floor` division is `Int.fdiv`).  JavaScript `Map`s are modelled as
association lists; `Map.set` updates the first binding in place or appends,
`Map.delete` removes the binding.  Redis string round-trips on integers are
modelled by storing the integer directly.
-/

namespace TokenBucket

/-! ## Association-list model of JavaScript `Map` and of the Redis keyspace -/

/-- `Map.get` / `redis.call('get', k)`: first binding for `k`, if any. -/
def alookup {V : Type} (k : String) : List (String × V) → Option V
  | [] => none
  | (k', v) :: rest => if k' = k then some v else alookup k rest

/-- `Map.set k v`: replace the existing binding in place, else append. -/
def aset {V : Type} (k : String) (v : V) : List (String × V) → List (String × V)
  | [] => [(k, v)]
  | (k', v') :: rest => if k' = k then (k, v) :: rest else (k', v') :: aset k v rest

/-- `Map.delete k`: drop the binding for `k`. -/
def aerase {V : Type} (k : String) (m : List (String × V)) : List (String × V) :=
  m.filter (fun p => p.1 ≠ k)

/-! ## Values stored in `this.blockedKeys`

The JavaScript `Map` holds either a numeric `blockUntil` timestamp (written by
`_blockKey` / `_setLockDuration`) or a `{consumedTokens, firstRequest}` record
(written by the abuse-guard block of `getToken`). -/

inductive BlockVal where
  | blockUntil (t : Int)
  | consumedRec (consumedTokens : Int) (firstRequest : Int)
deriving DecidableEq, Repr

abbrev BlockMap := List (String × BlockVal)

/-- JavaScript `now < v` where `v` may be a number or a record object;
comparing a number against an object yields `false`. -/
def numLt (now : Int) : BlockVal → Bool
  | .blockUntil t => now < t
  | .consumedRec _ _ => false

/-- `_isKeyBlocked` of src/RateLimiterTokenBucket.js: checks the plain key,
then the token-bucket lock key `key + "-lock"`, deleting expired entries. -/
def isKeyBlockedL (now : Int) (key : String) (bk : BlockMap) : Bool × BlockMap :=
  let step1 :=
    match alookup key bk with
    | some v =>
        if numLt now v then none
        else some (aerase (key ++ ":consumed") (aerase key bk))
    | none => some bk
  match step1 with
  | none => (true, bk)
  | some bk₁ =>
      let lockKey := key ++ "-lock"
      match alookup lockKey bk₁ with
      | some v =>
          if numLt now v then (true, bk₁)
          else (false, aerase lockKey bk₁)
      | none => (false, bk₁)

/-- A per-key bucket (`this.buckets` entry).  `timerAt` records when the
cleanup callback scheduled by `setTimeout` at creation fires
(creation time + 60000 ms). -/
structure Bucket where
  tokens : Int
  lastRefillTime : Int
  timerAt : Int
deriving DecidableEq, Repr

structure LocalOpts where
  tokenPerSecond : Int
  capacity : Int
  keyPrefix : String
  /-- `opts.lockDuration || 0`, in seconds. -/
  lockDuration : Int
  /-- `opts.inMemoryBlockOnConsumed`; the JS truthiness test
  `if (this.inMemoryBlockOnConsumed)` is modelled as `≠ 0`. -/
  inMemoryBlockOnConsumed : Int
  inMemoryBlockDuration : Int
deriving DecidableEq, Repr

structure LocalState where
  buckets : List (String × Bucket)
  blockedKeys : BlockMap
deriving DecidableEq, Repr

def LocalState.empty : LocalState := ⟨[], []⟩

/-- `key.endsWith('-lock')`. -/
def endsWithLockStr (k : String) : Bool := k.endsWith "-lock"

/-- `key.includes('consumed')`. -/
def includesConsumed (k : String) : Bool := (k.splitOn "consumed").length > 1

/-- One iteration of the `_collectExpiredBlockedKeys` loop (local class):
the `Map` iteration visits each snapshot entry unless it was deleted earlier
in the sweep, hence the re-lookup. -/
def collectEntryL (now : Int) (bk : BlockMap) (e : String × BlockVal) : BlockMap :=
  match alookup e.1 bk with
  | none => bk
  | some v =>
    let bk1 :=
      match v with
      | .blockUntil t =>
          if t ≤ now then
            let b := aerase e.1 bk
            if endsWithLockStr e.1 then b else aerase (e.1 ++ ":consumed") b
          else bk
      | .consumedRec _ _ => bk
    -- `if (key.includes('consumed')) { if (now - val.firstRequest >= 60000) … }`;
    -- on a numeric `val`, `val.firstRequest` is `undefined` and the `NaN`
    -- comparison is false, so only record values can be deleted here.
    match v with
    | .consumedRec _ fr =>
        if includesConsumed e.1 && decide (now - fr ≥ 60000) then aerase e.1 bk1 else bk1
    | .blockUntil _ => bk1

/-- `_collectExpiredBlockedKeys` of src/RateLimiterTokenBucket.js. -/
def collectExpiredL (now : Int) (bk : BlockMap) : BlockMap :=
  bk.foldl (collectEntryL now) bk

/-- `_calculateTokens` of src/RateLimiterTokenBucket.js.  Returns
`((limitTriggered, tokenBalance), state')` where `limitTriggered` is `1` when
the request is denied and `0` otherwise. -/
def localCalculateTokens (o : LocalOpts) (now : Int) (fullTokenKey : String)
    (requestedTokens : Int) (s : LocalState) : (Int × Int) × LocalState :=
  let lockKey := fullTokenKey ++ "-lock"
  let r₁ := isKeyBlockedL now lockKey s.blockedKeys
  if r₁.1 then ((1, 0), { s with blockedKeys := r₁.2 }) else
  match alookup fullTokenKey s.buckets with
  | none =>
      -- bucket absent: initialize to a full bucket and return the capacity
      let bucket : Bucket :=
        { tokens := o.capacity, lastRefillTime := now, timerAt := now + 60000 }
      ((0, o.capacity),
       { blockedKeys := r₁.2, buckets := aset fullTokenKey bucket s.buckets })
  | some b =>
      let pastTime := now - b.lastRefillTime
      let refisubtracted :=
        if pastTime < 1000 then (b.tokens - requestedTokens, b.lastRefillTime)
        else
          let pastSeconds := Int.fdiv pastTime 1000
          (b.tokens + pastSeconds * o.tokenPerSecond - requestedTokens,
           b.lastRefillTime + pastSeconds * 1000)
      let bucketAmount := min refisubtracted.1 o.capacity
      let buckets' :=
        aset fullTokenKey
          { tokens := bucketAmount, lastRefillTime := refisubtracted.2, timerAt := b.timerAt }
          s.buckets
      if bucketAmount ≤ 0 then
        let bk₂ :=
          if o.lockDuration > 0 then
            aset lockKey (.blockUntil (now + o.lockDuration * 1000)) r₁.2
          else r₁.2
        ((1, 0), { buckets := buckets', blockedKeys := bk₂ })
      else
        ((0, bucketAmount), { buckets := buckets', blockedKeys := r₁.2 })

/-- The abuse-guard block of `getToken` (fixed-window counting), executed when
`inMemoryBlockOnConsumed` is truthy; identical lines appear in both classes. -/
def guardStepL (o : LocalOpts) (now : Int) (fullBlockedKey : String)
    (bk : BlockMap) : BlockMap :=
  let ckey := fullBlockedKey ++ ":consumed"
  let rec0 :=
    match alookup ckey bk with
    | some (.consumedRec c f) => (c, f)
    | _ => (0, 0)
  let consumedTokens := rec0.1
  let firstRequest := rec0.2
  let bk1 :=
    if firstRequest ≠ 0 ∧ now - firstRequest ≥ 60000 then aerase ckey bk
    else if consumedTokens ≥ o.inMemoryBlockOnConsumed then
      aset fullBlockedKey (.blockUntil (now + o.inMemoryBlockDuration * 1000))
        (aerase ckey bk)
    else bk
  let currentConsumedTokens := consumedTokens + 1
  let bk2 := aset ckey (.consumedRec currentConsumedTokens firstRequest) bk1
  let bk3 :=
    if firstRequest = 0 then aset ckey (.consumedRec currentConsumedTokens now) bk2
    else bk2
  if bk3.length > 999 then collectExpiredL now bk3 else bk3

/-- `blockKey ? this.keyPrefix + blockKey : fullTokenKey` (both classes). -/
def fullBlockedKeyOf (keyPrefix tokenKey blockKey : String) : String :=
  if blockKey ≠ "" then keyPrefix ++ blockKey else keyPrefix ++ tokenKey

/-- `getToken` of src/RateLimiterTokenBucket.js. -/
def localGetToken (o : LocalOpts) (now : Int) (tokenKey blockKey : String)
    (requestedTokens : Int) (s : LocalState) : Int × LocalState :=
  let fullTokenKey := o.keyPrefix ++ tokenKey
  let fullBlockedKey := fullBlockedKeyOf o.keyPrefix tokenKey blockKey
  let r₁ := isKeyBlockedL now fullBlockedKey s.blockedKeys
  if r₁.1 then (0, { s with blockedKeys := r₁.2 }) else
  let bk₂ :=
    if o.inMemoryBlockOnConsumed ≠ 0 then guardStepL o now fullBlockedKey r₁.2 else r₁.2
  let r₃ := localCalculateTokens o now fullTokenKey requestedTokens
    { s with blockedKeys := bk₂ }
  (if r₃.1.1 = 0 then r₃.1.2 else 0, r₃.2)

/-- The `setTimeout` callback installed at bucket creation: one minute after
creation, delete the bucket for `fullTokenKey` if still present. -/
def bucketTimerFire (fullTokenKey : String) (s : LocalState) : LocalState :=
  match alookup fullTokenKey s.buckets with
  | some _ => { s with buckets := aerase fullTokenKey s.buckets }
  | none => s

/-- Events driving the local limiter: a `getToken` call, or the firing of a
bucket's creation-time cleanup timer (the `Int` records the wall-clock firing
time, which for a timer installed at creation is the bucket's `timerAt`). -/
inductive LEvent where
  | consume (t : Int) (tokenKey blockKey : String) (requestedTokens : Int)
  | timerFire (t : Int) (fullTokenKey : String)
deriving Repr

/-- Run a list of events, collecting the results of the `consume` events. -/
def runLocal (o : LocalOpts) : LocalState → List LEvent → LocalState × List Int
  | s, [] => (s, [])
  | s, (.consume t tk bk req) :: es =>
      let r := localGetToken o t tk bk req s
      let rest := runLocal o r.2 es
      (rest.1, r.1 :: rest.2)
  | s, (.timerFire _ key) :: es => runLocal o (bucketTimerFire key s) es

/-! ## Redis model (src/RateLimiterTokenBucketRedis.js)

The Lua script reads and writes three keys: `KEYS[1]` (the bucket balance),
`'{' .. KEYS[1] .. '}-st'` (last refill time) and `'{' .. KEYS[1] .. '}-lock'`
(the lock marker `'1'`).  Values the script stores as numbers round-trip
through Redis strings and `tonumber` unchanged, so they are modelled as `Int`
directly. -/

inductive RVal where
  | int (n : Int)
  | str (s : String)
deriving DecidableEq, Repr

/-- A Redis entry: value plus the absolute expiry time set via `PX`/`EX`. -/
structure REntry where
  val : RVal
  expireAt : Int
deriving DecidableEq, Repr

abbrev RedisStore := List (String × REntry)

/-- `redis.call('get', k)`: `nil` for missing or expired keys. -/
def rget (now : Int) (k : String) (st : RedisStore) : Option RVal :=
  match alookup k st with
  | some e => if now < e.expireAt then some e.val else none
  | none => none

/-- `redis.call('set', k, v, 'PX', px)`. -/
def rsetPX (now : Int) (k : String) (v : RVal) (px : Int) (st : RedisStore) :
    RedisStore :=
  aset k { val := v, expireAt := now + px } st

/-- `redis.call('set', k, v, 'EX', ex, 'NX')`: write only if the key is absent. -/
def rsetEXNX (now : Int) (k : String) (v : RVal) (ex : Int) (st : RedisStore) :
    RedisStore :=
  match rget now k st with
  | some _ => st
  | none => aset k { val := v, expireAt := now + ex * 1000 } st

/-- `tonumber` on a stored value.  The script only applies it to the balance
and timestamp entries, which it always wrote as numbers. -/
def toNum : RVal → Int
  | .int n => n
  | .str _ => 0

/-- The refill step of the script (the `past_time` branch, Lua lines
111–128): returns `(bucket_amount before clamping, new last_time,
last_time_changed)`. -/
def scriptRefill (currentValue lastTime amount inflowQuantityPerUnit
    inflowUnit currentTime : Int) : Int × Int × Int :=
  if currentTime - lastTime < inflowUnit then
    (currentValue - amount, lastTime, 0)
  else
    let pastInflowUnitQuantity := Int.fdiv (currentTime - lastTime) inflowUnit
    (currentValue + pastInflowUnitQuantity * inflowQuantityPerUnit - amount,
     lastTime + pastInflowUnitQuantity * inflowUnit, 1)

/-- The Lua script built by `_initScript`, executed atomically by
`redis.eval`.  `key` is `KEYS[1]`; the remaining arguments follow the ARGV
order.  Returns `((ret1, ret2), store')` where `ret1 = 1` flags denial.
The Lua `if lock_val == '1'` compares the fetched value with the string
`'1'` (false for `nil` or any other value). -/
def tokenBucketScript (key : String) (capacity amount inflowQuantityPerUnit
    inflowUnit lockSeconds keyExpireTime currentTime : Int) (st : RedisStore) :
    (Int × Int) × RedisStore :=
  let clKey := "\x7b" ++ key ++ "\x7d"
  let lockKey := clKey ++ "-lock"
  if rget currentTime lockKey st = some (.str "1") then ((1, -1), st)
  else
    let stKey := clKey ++ "-st"
    match rget currentTime stKey st with
    | none =>
        -- no prior state: initialize to `capacity - amount` and persist both keys
        let bucketAmount := capacity - amount
        let st₁ := rsetPX currentTime key (.int bucketAmount) keyExpireTime st
        let st₂ := rsetPX currentTime stKey (.int currentTime) keyExpireTime st₁
        ((0, bucketAmount), st₂)
    | some lastV =>
        let currentValue := toNum ((rget currentTime key st).getD (.int 0))
        let upd := scriptRefill currentValue (toNum lastV) amount
          inflowQuantityPerUnit inflowUnit currentTime
        let bucketAmount := min upd.1 capacity
        if bucketAmount < 0 then
          let st₁ :=
            if lockSeconds > 0 then rsetEXNX currentTime lockKey (.str "1") lockSeconds st
            else st
          ((1, bucketAmount), st₁)
        else
          let st₁ := rsetPX currentTime key (.int bucketAmount) keyExpireTime st
          let st₂ :=
            if upd.2.2 = 1 then rsetPX currentTime stKey (.int upd.2.1) keyExpireTime st₁
            else st₁
          ((0, bucketAmount), st₂)

/-- `_isKeyBlocked` of src/RateLimiterTokenBucketRedis.js (no `-lock` probe,
unlike the local class). -/
def isKeyBlockedR (now : Int) (key : String) (bk : BlockMap) : Bool × BlockMap :=
  match alookup key bk with
  | none => (false, bk)
  | some v =>
      if numLt now v then (true, bk)
      else (false, aerase (key ++ ":consumed") (aerase key bk))

/-- One iteration of the Redis class's `_collectExpiredBlockedKeys` loop (it
has no `-lock` suffix cascade, unlike the local class). -/
def collectEntryR (now : Int) (bk : BlockMap) (e : String × BlockVal) : BlockMap :=
  match alookup e.1 bk with
  | none => bk
  | some v =>
    let bk1 :=
      match v with
      | .blockUntil t => if t ≤ now then aerase e.1 bk else bk
      | .consumedRec _ _ => bk
    match v with
    | .consumedRec _ fr =>
        if includesConsumed e.1 && decide (now - fr ≥ 60000) then aerase e.1 bk1 else bk1
    | .blockUntil _ => bk1

def collectExpiredR (now : Int) (bk : BlockMap) : BlockMap :=
  bk.foldl (collectEntryR now) bk

structure RedisOpts where
  tokenPerSecond : Int
  capacity : Int
  keyPrefix : String
  /-- `opts.lockDuration || 0`, in seconds. -/
  lockDuration : Int
  insuranceLimiter : Bool
  /-- `opts.insuranceLimiterTokenPerSecond || this.tokenPerSecond`:
  `0` models the falsy (unset) case. -/
  insuranceLimiterTokenPerSecond : Int
  /-- `opts.insuranceLimiterCapacity || this.capacity`: `0` models unset. -/
  insuranceLimiterCapacity : Int
  inMemoryBlockOnConsumed : Int
  inMemoryBlockDuration : Int
deriving DecidableEq, Repr

/-- The constructor's insurance limiter: a `RateLimiterTokenBucket` built with
only `tokenPerSecond`, `capacity` and `keyPrefix` (its `lockDuration` defaults
to `0` and its abuse guard stays disabled). -/
def insuranceOpts (o : RedisOpts) : LocalOpts :=
  { tokenPerSecond :=
      if o.insuranceLimiterTokenPerSecond = 0 then o.tokenPerSecond
      else o.insuranceLimiterTokenPerSecond,
    capacity :=
      if o.insuranceLimiterCapacity = 0 then o.capacity else o.insuranceLimiterCapacity,
    keyPrefix := o.keyPrefix,
    lockDuration := 0,
    inMemoryBlockOnConsumed := 0,
    inMemoryBlockDuration := 0 }

inductive EvalBehavior where
  | ok
  | throws
deriving DecidableEq, Repr

/-- The `this.redis` handle as `getToken` observes it: `absent` models the
window before the dynamic `import('ioredis')` resolves (reading `.status`
throws a TypeError); `client` carries the reported `status` (`none` for a
falsy status field) and the behaviour of its `eval` method. -/
inductive RedisHandle where
  | absent
  | client (status : Option String) (evalBehavior : EvalBehavior)
deriving DecidableEq, Repr

/-- `_isRedisReady` for a present client: `status && status !== 'ready'`
reports not ready. -/
def statusReady : Option String → Bool
  | none => true
  | some st => st = "ready"

structure RedisLimiterState where
  blockedKeys : BlockMap
  store : RedisStore
  insurance : LocalState
deriving DecidableEq, Repr

def RedisLimiterState.empty : RedisLimiterState := ⟨[], [], LocalState.empty⟩

/-- The abuse-guard block of the Redis class's `getToken` (textually the same
fixed-window code as the local class, but sweeping with its own
`_collectExpiredBlockedKeys`). -/
def guardStepR (o : RedisOpts) (now : Int) (fullBlockedKey : String)
    (bk : BlockMap) : BlockMap :=
  let ckey := fullBlockedKey ++ ":consumed"
  let rec0 :=
    match alookup ckey bk with
    | some (.consumedRec c f) => (c, f)
    | _ => (0, 0)
  let consumedTokens := rec0.1
  let firstRequest := rec0.2
  let bk1 :=
    if firstRequest ≠ 0 ∧ now - firstRequest ≥ 60000 then aerase ckey bk
    else if consumedTokens ≥ o.inMemoryBlockOnConsumed then
      aset fullBlockedKey (.blockUntil (now + o.inMemoryBlockDuration * 1000))
        (aerase ckey bk)
    else bk
  let currentConsumedTokens := consumedTokens + 1
  let bk2 := aset ckey (.consumedRec currentConsumedTokens firstRequest) bk1
  let bk3 :=
    if firstRequest = 0 then aset ckey (.consumedRec currentConsumedTokens now) bk2
    else bk2
  if bk3.length > 999 then collectExpiredR now bk3 else bk3

/-- The shared failure path of the Redis `getToken`: the not-ready branch and
the `catch` branch are textually identical — use the insurance limiter when
enabled (on `getToken(fullTokenKey)`, so with its own prefixed key space),
else fail open with `1`. -/
def redisFallback (o : RedisOpts) (now : Int) (fullTokenKey : String)
    (s : RedisLimiterState) : Int × RedisLimiterState :=
  if o.insuranceLimiter then
    let r := localGetToken (insuranceOpts o) now fullTokenKey "" 1 s.insurance
    (r.1, { s with insurance := r.2 })
  else (1, s)

/-- `getToken` of src/RateLimiterTokenBucketRedis.js.  The `eval` call passes
`(capacity, requestedTokens, tokenPerSecond, 1000, lockDuration, 60000,
Date.now())` as script arguments; `parseFloat` on an integral balance is the
identity.  An absent handle makes `_isRedisReady` throw inside `try`, landing
in the `catch` branch. -/
def redisGetToken (o : RedisOpts) (h : RedisHandle) (now : Int)
    (tokenKey blockKey : String) (requestedTokens : Int)
    (s : RedisLimiterState) : Int × RedisLimiterState :=
  let fullTokenKey := o.keyPrefix ++ tokenKey
  let fullBlockedKey := fullBlockedKeyOf o.keyPrefix tokenKey blockKey
  let r₁ := isKeyBlockedR now fullBlockedKey s.blockedKeys
  if r₁.1 then (0, { s with blockedKeys := r₁.2 }) else
  let bk₂ :=
    if o.inMemoryBlockOnConsumed ≠ 0 then guardStepR o now fullBlockedKey r₁.2 else r₁.2
  let s₂ := { s with blockedKeys := bk₂ }
  match h with
  | .absent => redisFallback o now fullTokenKey s₂
  | .client status bhv =>
      if statusReady status then
        match bhv with
        | .throws => redisFallback o now fullTokenKey s₂
        | .ok =>
            let r := tokenBucketScript fullTokenKey o.capacity requestedTokens
              o.tokenPerSecond 1000 o.lockDuration 60000 now s₂.store
            (if r.1.1 = 0 then r.1.2 else 0, { s₂ with store := r.2 })
      else redisFallback o now fullTokenKey s₂

/-! ## Example configurations used by concrete counterexamples and witnesses -/

/-- A plain local limiter: 1 token per second, capacity 1, no lock, no guard. -/
def oCap1 : LocalOpts :=
  { tokenPerSecond := 1, capacity := 1, keyPrefix := "", lockDuration := 0,
    inMemoryBlockOnConsumed := 0, inMemoryBlockDuration := 0 }

/-- A plain local limiter with capacity 5. -/
def oCap5 : LocalOpts :=
  { tokenPerSecond := 2, capacity := 5, keyPrefix := "", lockDuration := 0,
    inMemoryBlockOnConsumed := 0, inMemoryBlockDuration := 0 }

/-- Local limiter with the abuse guard at threshold 3, lockout 3 s. -/
def oGuard3 : LocalOpts :=
  { tokenPerSecond := 1, capacity := 10, keyPrefix := "", lockDuration := 0,
    inMemoryBlockOnConsumed := 3, inMemoryBlockDuration := 3 }

/-- Local limiter with the abuse guard at threshold 2, lockout 3 s. -/
def oGuard2 : LocalOpts :=
  { tokenPerSecond := 1, capacity := 5, keyPrefix := "", lockDuration := 0,
    inMemoryBlockOnConsumed := 2, inMemoryBlockDuration := 3 }

/-- Local limiter with `lockDuration = 2` s, capacity 2, rate 2/s. -/
def oLock2 : LocalOpts :=
  { tokenPerSecond := 2, capacity := 2, keyPrefix := "", lockDuration := 2,
    inMemoryBlockOnConsumed := 0, inMemoryBlockDuration := 0 }

/-- Local limiter with capacity 100, rate 1/s (used for the eviction trace). -/
def oCap100 : LocalOpts :=
  { tokenPerSecond := 1, capacity := 100, keyPrefix := "", lockDuration := 0,
    inMemoryBlockOnConsumed := 0, inMemoryBlockDuration := 0 }

/-- A distributed limiter: 2 tokens per second, capacity 5, no insurance. -/
def roCap5 : RedisOpts :=
  { tokenPerSecond := 2, capacity := 5, keyPrefix := "", lockDuration := 0,
    insuranceLimiter := false, insuranceLimiterTokenPerSecond := 0,
    insuranceLimiterCapacity := 0, inMemoryBlockOnConsumed := 0,
    inMemoryBlockDuration := 0 }

/-- Same with capacity 1. -/
def roCap1 : RedisOpts :=
  { tokenPerSecond := 2, capacity := 1, keyPrefix := "", lockDuration := 0,
    insuranceLimiter := false, insuranceLimiterTokenPerSecond := 0,
    insuranceLimiterCapacity := 0, inMemoryBlockOnConsumed := 0,
    inMemoryBlockDuration := 0 }

/-- Same with the insurance limiter enabled. -/
def roIns : RedisOpts :=
  { tokenPerSecond := 2, capacity := 5, keyPrefix := "", lockDuration := 0,
    insuranceLimiter := true, insuranceLimiterTokenPerSecond := 0,
    insuranceLimiterCapacity := 0, inMemoryBlockOnConsumed := 0,
    inMemoryBlockDuration := 0 }

/-- A ready ioredis client whose `eval` succeeds. -/
def hReady : RedisHandle := .client (some "ready") .ok

/-! ## Basic lemmas about the map model and key strings -/

theorem alookup_aset_self {V : Type} (k : String) (v : V) (m : List (String × V)) :
    alookup k (aset k v m) = some v := by
  induction m with
  | nil => simp [aset, alookup]
  | cons p rest ih =>
      by_cases h : p.1 = k
      · simp [aset, h, alookup]
      · simp [aset, h, alookup, ih]

theorem alookup_aset_ne {V : Type} {k k' : String} (h : k' ≠ k) (v : V)
    (m : List (String × V)) : alookup k' (aset k v m) = alookup k' m := by
  induction m with
  | nil => simp [aset, alookup, Ne.symm h]
  | cons p rest ih =>
      by_cases hp : p.1 = k
      · subst hp
        simp [aset, alookup, Ne.symm h]
      · simp only [aset, hp, if_false, alookup]
        by_cases hk' : p.1 = k'
        · simp [hk']
        · simp [hk', ih]

theorem alookup_aerase_self {V : Type} (k : String) (m : List (String × V)) :
    alookup k (aerase k m) = none := by
  induction m with
  | nil => simp [aerase, alookup]
  | cons p rest ih =>
      by_cases h : p.1 = k
      · rw [show aerase k (p :: rest) = aerase k rest by simp [aerase, h]]
        exact ih
      · rw [show aerase k (p :: rest) = p :: aerase k rest by simp [aerase, h]]
        simp [alookup, h, ih]

theorem alookup_aerase_ne {V : Type} {k k' : String} (h : k' ≠ k)
    (m : List (String × V)) : alookup k' (aerase k m) = alookup k' m := by
  induction m with
  | nil => simp [aerase, alookup]
  | cons p rest ih =>
      by_cases hp : p.1 = k
      · have hpk' : ¬ p.1 = k' := by rw [hp]; exact Ne.symm h
        rw [show aerase k (p :: rest) = aerase k rest by simp [aerase, hp]]
        rw [ih]
        simp [alookup, hpk']
      · rw [show aerase k (p :: rest) = p :: aerase k rest by simp [aerase, hp]]
        simp [alookup, ih]

theorem aset_aset_self {V : Type} (k : String) (v : V) (m : List (String × V)) :
    aset k v (aset k v m) = aset k v m := by
  induction m with
  | nil => simp [aset]
  | cons p rest ih =>
      by_cases h : p.1 = k
      · simp [aset, h]
      · simp [aset, h, ih]

theorem string_append_cancel {s t₁ t₂ : String} (h : s ++ t₁ = s ++ t₂) : t₁ = t₂ := by
  cases s with
  | mk d =>
    cases t₁ with
    | mk d₁ =>
      cases t₂ with
      | mk d₂ =>
        have hd : d ++ d₁ = d ++ d₂ := congrArg String.data h
        have : d₁ = d₂ := List.append_cancel_left hd
        simp [this]

theorem string_ne_append {s t : String} (h : t ≠ "") : s ≠ s ++ t := by
  intro hs
  have h0 : s ++ "" = s := by
    cases s with
    | mk d => simp [String.instAppend, String.append]
  apply h
  exact (string_append_cancel (by rw [h0, ← hs])).symm

theorem string_ne_of_length {s t : String} (h : s.length ≠ t.length) : s ≠ t :=
  fun he => h (he ▸ rfl)

theorem string_append_ne {s t₁ t₂ : String} (h : t₁ ≠ t₂) : s ++ t₁ ≠ s ++ t₂ :=
  fun he => h (string_append_cancel he)

theorem braced_suffix_ne_key (key suf : String) :
    (("\x7b" ++ key ++ "\x7d") ++ suf) ≠ key := by
  apply string_ne_of_length
  have h1 : ("\x7b" : String).length = 1 := rfl
  have h2 : ("\x7d" : String).length = 1 := rfl
  simp [String.length_append, h1, h2]
  omega

/-! ## C1 — first consume on a fresh key -/

/-- C1 counterexample: in the local in-memory backend the first `getToken` on
a fresh key with `requestedTokens = 1` and capacity 5 returns the full
capacity 5, not `capacity − requestedTokens = 4`, so the claim fails for the
local backend. -/
theorem C1_counterexample :
    (localGetToken oCap5 100000 "user1" "" 1 LocalState.empty).1 = 5 ∧
    ((5 : Int) ≠ 5 - 1) := by
  constructor
  · rfl
  · decide

/-- C1 (amended): on a key with no prior state the Redis script initializes
the bucket, persists balance `capacity − requestedTokens` and the refill
timestamp, and returns success with that balance; the local backend instead
initializes a full bucket and returns `capacity` without subtracting. -/
theorem C1_amended
    (key : String) (capacity amount q unit ls ke now : Int) (st : RedisStore)
    (hke : 0 < ke)
    (hlock : rget now (("\x7b" ++ key ++ "\x7d") ++ "-lock") st = none)
    (hst : rget now (("\x7b" ++ key ++ "\x7d") ++ "-st") st = none)
    (o : LocalOpts) (now' : Int) (tokenKey : String) (s : LocalState)
    (hguard : o.inMemoryBlockOnConsumed = 0)
    (hb : alookup (o.keyPrefix ++ tokenKey) s.buckets = none)
    (h1 : alookup (o.keyPrefix ++ tokenKey) s.blockedKeys = none)
    (h2 : alookup ((o.keyPrefix ++ tokenKey) ++ "-lock") s.blockedKeys = none)
    (h3 : alookup (((o.keyPrefix ++ tokenKey) ++ "-lock") ++ "-lock") s.blockedKeys = none) :
    ((tokenBucketScript key capacity amount q unit ls ke now st).1 = (0, capacity - amount) ∧
      rget now key (tokenBucketScript key capacity amount q unit ls ke now st).2
        = some (.int (capacity - amount)) ∧
      rget now (("\x7b" ++ key ++ "\x7d") ++ "-st")
          (tokenBucketScript key capacity amount q unit ls ke now st).2
        = some (.int now)) ∧
    ((localGetToken o now' tokenKey "" 1 s).1 = o.capacity ∧
      alookup (o.keyPrefix ++ tokenKey) (localGetToken o now' tokenKey "" 1 s).2.buckets
        = some ⟨o.capacity, now', now' + 60000⟩) := by
  constructor
  · have hkey_ne : (("\x7b" ++ key ++ "\x7d") ++ "-st") ≠ key := braced_suffix_ne_key key "-st"
    refine ⟨?_, ?_, ?_⟩
    · simp [tokenBucketScript, hlock, hst]
    · simp only [tokenBucketScript, hlock, hst]
      have hlt : now < now + ke := by omega
      simp [rsetPX, rget, alookup_aset_ne (Ne.symm hkey_ne), alookup_aset_self, hlt]
    · simp only [tokenBucketScript, hlock, hst]
      have hlt : now < now + ke := by omega
      simp [rsetPX, rget, alookup_aset_self, hlt]
  · constructor
    · simp [localGetToken, fullBlockedKeyOf, isKeyBlockedL, h1, h2, hguard,
        localCalculateTokens, h3, hb]
    · simp [localGetToken, fullBlockedKeyOf, isKeyBlockedL, h1, h2, hguard,
        localCalculateTokens, h3, hb, alookup_aset_self]

/-- C1 amended witness: the amended statement at a concrete fresh key. -/
theorem C1_amended_witness :
    ((tokenBucketScript "user1" 5 1 2 1000 0 60000 100000 []).1 = (0, 5 - 1) ∧
      rget 100000 "user1" (tokenBucketScript "user1" 5 1 2 1000 0 60000 100000 []).2
        = some (.int (5 - 1)) ∧
      rget 100000 (("\x7b" ++ "user1" ++ "\x7d") ++ "-st")
          (tokenBucketScript "user1" 5 1 2 1000 0 60000 100000 []).2
        = some (.int 100000)) ∧
    ((localGetToken oCap5 100000 "user1" "" 1 LocalState.empty).1 = oCap5.capacity ∧
      alookup (oCap5.keyPrefix ++ "user1")
          (localGetToken oCap5 100000 "user1" "" 1 LocalState.empty).2.buckets
        = some ⟨oCap5.capacity, 100000, 100000 + 60000⟩) :=
  C1_amended "user1" 5 1 2 1000 0 60000 100000 [] (by decide) (by decide) (by decide)
    oCap5 100000 "user1" LocalState.empty (by decide) (by decide) (by decide)
    (by decide) (by decide)

/-! ## C2 — bounds on the stored balance -/

/-- C2 counterexample: in the local store with capacity 1, the second consume
at the same instant is denied (returns 0) yet the stored balance is
overwritten from 1 to 0 — not left at its pre-consumption value — and a third
denied consume stores −1, violating `0 ≤ tokens`. -/
theorem C2_counterexample :
    ((runLocal oCap1 LocalState.empty
        [.consume 100000 "u" "" 1, .consume 100000 "u" "" 1]).2 = [1, 0] ∧
      alookup "u" (runLocal oCap1 LocalState.empty
        [.consume 100000 "u" "" 1, .consume 100000 "u" "" 1]).1.buckets
        = some ⟨0, 100000, 160000⟩ ∧ (0 : Int) ≠ 1) ∧
    (alookup "u" (runLocal oCap1 LocalState.empty
        [.consume 100000 "u" "" 1, .consume 100000 "u" "" 1,
         .consume 100000 "u" "" 1]).1.buckets = some ⟨-1, 100000, 160000⟩ ∧
      ¬ (0 ≤ (-1 : Int))) :=
  ⟨⟨by decide, by decide, by decide⟩, by decide, by decide⟩

theorem alookup_rsetEXNX_ne {k k' : String} (h : k' ≠ k) (now : Int) (v : RVal)
    (ex : Int) (st : RedisStore) :
    alookup k' (rsetEXNX now k v ex st) = alookup k' st := by
  unfold rsetEXNX
  cases hr : rget now k st <;> simp [alookup_aset_ne h]

/-- On a denial, the script writes neither the balance key nor the
last-refill key (it at most sets the lock marker). -/
theorem script_deny_preserves (key : String)
    (capacity amount q unit ls ke now : Int) (st : RedisStore)
    (hden : (tokenBucketScript key capacity amount q unit ls ke now st).1.1 = 1) :
    alookup key (tokenBucketScript key capacity amount q unit ls ke now st).2
        = alookup key st ∧
    alookup (("\x7b" ++ key ++ "\x7d") ++ "-st")
        (tokenBucketScript key capacity amount q unit ls ke now st).2
      = alookup (("\x7b" ++ key ++ "\x7d") ++ "-st") st := by
  have hkl : key ≠ ("\x7b" ++ key ++ "\x7d") ++ "-lock" :=
    Ne.symm (braced_suffix_ne_key key "-lock")
  have hsl : (("\x7b" ++ key ++ "\x7d") ++ "-st") ≠ ("\x7b" ++ key ++ "\x7d") ++ "-lock" :=
    string_append_ne (by decide)
  by_cases hl : rget now (("\x7b" ++ key ++ "\x7d") ++ "-lock") st = some (.str "1")
  · simp [tokenBucketScript, hl]
  · cases hstv : rget now (("\x7b" ++ key ++ "\x7d") ++ "-st") st with
    | none =>
        exfalso
        simp [tokenBucketScript, hl, hstv] at hden
    | some lastV =>
        by_cases hneg :
            min (scriptRefill (toNum ((rget now key st).getD (.int 0))) (toNum lastV)
              amount q unit now).1 capacity < 0
        · by_cases hls : ls > 0
          · simp [tokenBucketScript, hl, hstv, hneg, hls,
              alookup_rsetEXNX_ne hkl, alookup_rsetEXNX_ne hsl]
          · simp [tokenBucketScript, hl, hstv, hneg, hls]
        · exfalso
          simp [tokenBucketScript, hl, hstv, hneg] at hden

/-- C2 (amended): stored balances never exceed capacity in either backend,
and in the Redis backend a denial writes neither the balance nor the
timestamp key; the local backend, however, persists the computed balance even
on a denial, so its stored value can drop to zero or below (see the
counterexample). -/
theorem C2_amended
    (key : String) (capacity amount q unit ls ke now : Int) (st : RedisStore)
    (hamt : 0 ≤ amount)
    (o : LocalOpts) (now' : Int) (ftk : String) (req : Int) (s : LocalState) :
    ((tokenBucketScript key capacity amount q unit ls ke now st).1.1 = 1 →
      alookup key (tokenBucketScript key capacity amount q unit ls ke now st).2
          = alookup key st ∧
      alookup (("\x7b" ++ key ++ "\x7d") ++ "-st")
          (tokenBucketScript key capacity amount q unit ls ke now st).2
        = alookup (("\x7b" ++ key ++ "\x7d") ++ "-st") st) ∧
    (alookup key (tokenBucketScript key capacity amount q unit ls ke now st).2
        = alookup key st ∨
      ∃ e, alookup key (tokenBucketScript key capacity amount q unit ls ke now st).2
          = some e ∧ ∃ n, e.val = RVal.int n ∧ n ≤ capacity) ∧
    (alookup ftk (localCalculateTokens o now' ftk req s).2.buckets
        = alookup ftk s.buckets ∨
      ∃ b, alookup ftk (localCalculateTokens o now' ftk req s).2.buckets = some b ∧
        b.tokens ≤ o.capacity) := by
  have hks : key ≠ ("\x7b" ++ key ++ "\x7d") ++ "-st" :=
    Ne.symm (braced_suffix_ne_key key "-st")
  have hkl : key ≠ ("\x7b" ++ key ++ "\x7d") ++ "-lock" :=
    Ne.symm (braced_suffix_ne_key key "-lock")
  refine ⟨fun hden => script_deny_preserves key capacity amount q unit ls ke now st hden,
    ?_, ?_⟩
  · by_cases hl : rget now (("\x7b" ++ key ++ "\x7d") ++ "-lock") st = some (.str "1")
    · left; simp [tokenBucketScript, hl]
    · cases hstv : rget now (("\x7b" ++ key ++ "\x7d") ++ "-st") st with
      | none =>
          right
          refine ⟨⟨.int (capacity - amount), now + ke⟩, ?_, capacity - amount, rfl, by omega⟩
          simp [tokenBucketScript, hl, hstv, rsetPX, alookup_aset_ne hks, alookup_aset_self]
      | some lastV =>
          by_cases hneg :
              min (scriptRefill (toNum ((rget now key st).getD (.int 0))) (toNum lastV)
                amount q unit now).1 capacity < 0
          · left
            by_cases hls : ls > 0 <;>
              simp [tokenBucketScript, hl, hstv, hneg, hls, alookup_rsetEXNX_ne hkl]
          · right
            refine ⟨⟨.int (min (scriptRefill (toNum ((rget now key st).getD (.int 0)))
                (toNum lastV) amount q unit now).1 capacity), now + ke⟩, ?_, _, rfl,
              min_le_right _ _⟩
            by_cases hchg : (scriptRefill (toNum ((rget now key st).getD (.int 0)))
                (toNum lastV) amount q unit now).2.2 = 1
            · simp [tokenBucketScript, hl, hstv, hneg, hchg, rsetPX,
                alookup_aset_ne hks, alookup_aset_self]
            · simp [tokenBucketScript, hl, hstv, hneg, hchg, rsetPX, alookup_aset_self]
  · unfold localCalculateTokens
    by_cases hbl : (isKeyBlockedL now' (ftk ++ "-lock") s.blockedKeys).1
    · left; simp [hbl]
    · cases hb : alookup ftk s.buckets with
      | none =>
          right
          refine ⟨⟨o.capacity, now', now' + 60000⟩, ?_, le_refl _⟩
          simp [hbl, hb, alookup_aset_self]
      | some b =>
          right
          by_cases hpt : now' - b.lastRefillTime < 1000
          · by_cases hz : min (b.tokens - req) o.capacity ≤ 0
            · refine ⟨⟨min (b.tokens - req) o.capacity, b.lastRefillTime, b.timerAt⟩,
                ?_, min_le_right _ _⟩
              simp [hbl, hb, hpt, hz, alookup_aset_self]
            · refine ⟨⟨min (b.tokens - req) o.capacity, b.lastRefillTime, b.timerAt⟩,
                ?_, min_le_right _ _⟩
              simp [hbl, hb, hpt, hz, alookup_aset_self]
          · by_cases hz : min (b.tokens + Int.fdiv (now' - b.lastRefillTime) 1000
                * o.tokenPerSecond - req) o.capacity ≤ 0
            · refine ⟨⟨min (b.tokens + Int.fdiv (now' - b.lastRefillTime) 1000
                  * o.tokenPerSecond - req) o.capacity,
                b.lastRefillTime + Int.fdiv (now' - b.lastRefillTime) 1000 * 1000,
                b.timerAt⟩, ?_, min_le_right _ _⟩
              simp [hbl, hb, hpt, hz, alookup_aset_self]
            · refine ⟨⟨min (b.tokens + Int.fdiv (now' - b.lastRefillTime) 1000
                  * o.tokenPerSecond - req) o.capacity,
                b.lastRefillTime + Int.fdiv (now' - b.lastRefillTime) 1000 * 1000,
                b.timerAt⟩, ?_, min_le_right _ _⟩
              simp [hbl, hb, hpt, hz, alookup_aset_self]

/-- C2 amended witness: the amended statement at a concrete input. -/
theorem C2_amended_witness :
    (((tokenBucketScript "u" 5 1 2 1000 0 60000 100000 []).1.1 = 1 →
      alookup "u" (tokenBucketScript "u" 5 1 2 1000 0 60000 100000 []).2
          = alookup "u" ([] : RedisStore) ∧
      alookup (("\x7b" ++ "u" ++ "\x7d") ++ "-st")
          (tokenBucketScript "u" 5 1 2 1000 0 60000 100000 []).2
        = alookup (("\x7b" ++ "u" ++ "\x7d") ++ "-st") ([] : RedisStore)) ∧
    (alookup "u" (tokenBucketScript "u" 5 1 2 1000 0 60000 100000 []).2
        = alookup "u" ([] : RedisStore) ∨
      ∃ e, alookup "u" (tokenBucketScript "u" 5 1 2 1000 0 60000 100000 []).2
          = some e ∧ ∃ n, e.val = RVal.int n ∧ n ≤ 5) ∧
    (alookup "u" (localCalculateTokens oCap5 100000 "u" 1 LocalState.empty).2.buckets
        = alookup "u" LocalState.empty.buckets ∨
      ∃ b, alookup "u" (localCalculateTokens oCap5 100000 "u" 1
          LocalState.empty).2.buckets = some b ∧ b.tokens ≤ oCap5.capacity)) :=
  C2_amended "u" 5 1 2 1000 0 60000 100000 [] (by decide)
    oCap5 100000 "u" 1 LocalState.empty

/-! ## C3 — refill arithmetic on an existing bucket -/

/-- C3: consuming from an existing, unlocked bucket in either backend takes
tokens directly from the balance with the refill timestamp unchanged when
less than one time-unit elapsed, and otherwise adds exactly
`floor(elapsed/unit) × rate` tokens, advances the stored timestamp by exactly
`floor(elapsed/unit)` whole units (not to `now`), then subtracts the
requested amount (the result being clamped at capacity).  The Redis script
persists the advanced timestamp on success and never rewrites it in the
`< unit` branch. -/
theorem C3_refill
    (key : String) (capacity amount q unit ls ke now last cur : Int) (st : RedisStore)
    (hke : 0 < ke)
    (hl : rget now (("\x7b" ++ key ++ "\x7d") ++ "-lock") st ≠ some (.str "1"))
    (hstv : rget now (("\x7b" ++ key ++ "\x7d") ++ "-st") st = some (.int last))
    (hcur : rget now key st = some (.int cur))
    (o : LocalOpts) (now' : Int) (ftk : String) (req : Int) (s : LocalState) (b : Bucket)
    (h2 : alookup (ftk ++ "-lock") s.blockedKeys = none)
    (h3 : alookup ((ftk ++ "-lock") ++ "-lock") s.blockedKeys = none)
    (hb : alookup ftk s.buckets = some b) :
    ((now - last < unit →
      (tokenBucketScript key capacity amount q unit ls ke now st).1.2
          = min (cur - amount) capacity ∧
      alookup (("\x7b" ++ key ++ "\x7d") ++ "-st")
          (tokenBucketScript key capacity amount q unit ls ke now st).2
        = alookup (("\x7b" ++ key ++ "\x7d") ++ "-st") st) ∧
     (¬ now - last < unit →
      (tokenBucketScript key capacity amount q unit ls ke now st).1.2
          = min (cur + Int.fdiv (now - last) unit * q - amount) capacity ∧
      ((tokenBucketScript key capacity amount q unit ls ke now st).1.1 = 0 →
        rget now (("\x7b" ++ key ++ "\x7d") ++ "-st")
            (tokenBucketScript key capacity amount q unit ls ke now st).2
          = some (.int (last + Int.fdiv (now - last) unit * unit))))) ∧
    ((now' - b.lastRefillTime < 1000 →
      alookup ftk (localCalculateTokens o now' ftk req s).2.buckets
        = some ⟨min (b.tokens - req) o.capacity, b.lastRefillTime, b.timerAt⟩) ∧
     (¬ now' - b.lastRefillTime < 1000 →
      alookup ftk (localCalculateTokens o now' ftk req s).2.buckets
        = some ⟨min (b.tokens + Int.fdiv (now' - b.lastRefillTime) 1000
              * o.tokenPerSecond - req) o.capacity,
            b.lastRefillTime + Int.fdiv (now' - b.lastRefillTime) 1000 * 1000,
            b.timerAt⟩)) := by
  have hks : key ≠ ("\x7b" ++ key ++ "\x7d") ++ "-st" :=
    Ne.symm (braced_suffix_ne_key key "-st")
  have hkl : key ≠ ("\x7b" ++ key ++ "\x7d") ++ "-lock" :=
    Ne.symm (braced_suffix_ne_key key "-lock")
  have hsl : (("\x7b" ++ key ++ "\x7d") ++ "-st") ≠ ("\x7b" ++ key ++ "\x7d") ++ "-lock" :=
    string_append_ne (by decide)
  have hsk : (("\x7b" ++ key ++ "\x7d") ++ "-st") ≠ key := braced_suffix_ne_key key "-st"
  have hlt : now < now + ke := by omega
  constructor
  · constructor
    · intro hpt
      by_cases hneg : min (cur - amount) capacity < 0
      · constructor
        · simp [tokenBucketScript, hl, hstv, hcur, toNum, scriptRefill, hpt, hneg]
        · by_cases hls : ls > 0 <;>
            simp [tokenBucketScript, hl, hstv, hcur, toNum, scriptRefill, hpt, hneg,
              hls, alookup_rsetEXNX_ne hsl]
      · constructor
        · simp [tokenBucketScript, hl, hstv, hcur, toNum, scriptRefill, hpt, hneg]
        · simp [tokenBucketScript, hl, hstv, hcur, toNum, scriptRefill, hpt, hneg,
            rsetPX, alookup_aset_ne hsk]
    · intro hpt
      by_cases hneg :
          min (cur + Int.fdiv (now - last) unit * q - amount) capacity < 0
      · constructor
        · simp [tokenBucketScript, hl, hstv, hcur, toNum, scriptRefill, hpt, hneg]
        · intro hsucc
          exfalso
          by_cases hls : ls > 0 <;>
            simp [tokenBucketScript, hl, hstv, hcur, toNum, scriptRefill, hpt, hneg,
              hls] at hsucc
      · constructor
        · simp [tokenBucketScript, hl, hstv, hcur, toNum, scriptRefill, hpt, hneg]
        · intro _
          simp only [tokenBucketScript, hl, hstv, hcur]
          simp [toNum, scriptRefill, hpt, hneg, rsetPX, rget, alookup_aset_self, hlt]
  · constructor
    · intro hpt
      by_cases hz : min (b.tokens - req) o.capacity ≤ 0 <;>
        simp [localCalculateTokens, isKeyBlockedL, h2, h3, hb, hpt, hz, alookup_aset_self]
    · intro hpt
      by_cases hz : min (b.tokens + Int.fdiv (now' - b.lastRefillTime) 1000
          * o.tokenPerSecond - req) o.capacity ≤ 0 <;>
        simp [localCalculateTokens, isKeyBlockedL, h2, h3, hb, hpt, hz, alookup_aset_self]

/-- C3 witness: the refill statement at a concrete existing bucket in both
backends (Redis: balance 3, last refill 1 s ago; local: balance 3). -/
theorem C3_refill_witness :
    (((101000 : Int) - 100000 < 1000 →
      (tokenBucketScript "u" 5 1 2 1000 0 60000 101000
          [("u", ⟨.int 3, 160000⟩), (("\x7b" ++ "u" ++ "\x7d") ++ "-st",
            ⟨.int 100000, 160000⟩)]).1.2 = min ((3 : Int) - 1) 5 ∧
      alookup (("\x7b" ++ "u" ++ "\x7d") ++ "-st")
          (tokenBucketScript "u" 5 1 2 1000 0 60000 101000
            [("u", ⟨.int 3, 160000⟩), (("\x7b" ++ "u" ++ "\x7d") ++ "-st",
              ⟨.int 100000, 160000⟩)]).2
        = alookup (("\x7b" ++ "u" ++ "\x7d") ++ "-st")
            ([("u", ⟨.int 3, 160000⟩), (("\x7b" ++ "u" ++ "\x7d") ++ "-st",
              ⟨.int 100000, 160000⟩)] : RedisStore)) ∧
     (¬ (101000 : Int) - 100000 < 1000 →
      (tokenBucketScript "u" 5 1 2 1000 0 60000 101000
          [("u", ⟨.int 3, 160000⟩), (("\x7b" ++ "u" ++ "\x7d") ++ "-st",
            ⟨.int 100000, 160000⟩)]).1.2
          = min ((3 : Int) + Int.fdiv ((101000 : Int) - 100000) 1000 * 2 - 1) 5 ∧
      ((tokenBucketScript "u" 5 1 2 1000 0 60000 101000
          [("u", ⟨.int 3, 160000⟩), (("\x7b" ++ "u" ++ "\x7d") ++ "-st",
            ⟨.int 100000, 160000⟩)]).1.1 = 0 →
        rget 101000 (("\x7b" ++ "u" ++ "\x7d") ++ "-st")
            (tokenBucketScript "u" 5 1 2 1000 0 60000 101000
              [("u", ⟨.int 3, 160000⟩), (("\x7b" ++ "u" ++ "\x7d") ++ "-st",
                ⟨.int 100000, 160000⟩)]).2
          = some (.int (100000 + Int.fdiv ((101000 : Int) - 100000) 1000 * 1000))))) ∧
    (((100000 : Int) - 99500 < 1000 →
      alookup "u" (localCalculateTokens oCap5 100000 "u" 1
          ⟨[("u", ⟨3, 99500, 159500⟩)], []⟩).2.buckets
        = some ⟨min ((3 : Int) - 1) oCap5.capacity, 99500, 159500⟩) ∧
     (¬ (100000 : Int) - 99500 < 1000 →
      alookup "u" (localCalculateTokens oCap5 100000 "u" 1
          ⟨[("u", ⟨3, 99500, 159500⟩)], []⟩).2.buckets
        = some ⟨min ((3 : Int) + Int.fdiv ((100000 : Int) - 99500) 1000
              * oCap5.tokenPerSecond - 1) oCap5.capacity,
            99500 + Int.fdiv ((100000 : Int) - 99500) 1000 * 1000, 159500⟩)) :=
  C3_refill "u" 5 1 2 1000 0 60000 101000 100000 3
    [("u", ⟨.int 3, 160000⟩), (("\x7b" ++ "u" ++ "\x7d") ++ "-st", ⟨.int 100000, 160000⟩)]
    (by decide) (by decide) (by decide) (by decide)
    oCap5 100000 "u" 1 ⟨[("u", ⟨3, 99500, 159500⟩)], []⟩ ⟨3, 99500, 159500⟩
    (by decide) (by decide) (by decide)

/-! ## C6 — shared store not ready or script throws -/

/-- C6: when the Redis client reports a non-ready status or its `eval`
throws, `getToken` returns the insurance limiter's decision on its own state
when insurance is enabled, and `1` otherwise; no error propagates. -/
theorem C6_outage_fallback
    (o : RedisOpts) (status : Option String) (bhv : EvalBehavior)
    (now : Int) (tokenKey blockKey : String) (req : Int) (s : RedisLimiterState)
    (hout : statusReady status = false ∨ bhv = .throws)
    (hnb : (isKeyBlockedR now (fullBlockedKeyOf o.keyPrefix tokenKey blockKey)
      s.blockedKeys).1 = false) :
    (redisGetToken o (.client status bhv) now tokenKey blockKey req s).1 =
      if o.insuranceLimiter then
        (localGetToken (insuranceOpts o) now (o.keyPrefix ++ tokenKey) "" 1 s.insurance).1
      else 1 := by
  rcases hout with hns | hth
  · simp [redisGetToken, hnb, hns, redisFallback]
    by_cases hi : o.insuranceLimiter <;> simp [hi]
  · subst hth
    by_cases hr : statusReady status
    · simp [redisGetToken, hnb, hr, redisFallback]
      by_cases hi : o.insuranceLimiter <;> simp [hi]
    · simp [redisGetToken, hnb, hr, redisFallback]
      by_cases hi : o.insuranceLimiter <;> simp [hi]

/-- C6 witness: a non-ready client with insurance enabled at a concrete
state falls back to the local limiter (which returns its full capacity 5). -/
theorem C6_outage_fallback_witness :
    (redisGetToken roIns (.client (some "connecting") .ok) 100000 "u" "" 1
      RedisLimiterState.empty).1 =
      if roIns.insuranceLimiter then
        (localGetToken (insuranceOpts roIns) 100000 (roIns.keyPrefix ++ "u") "" 1
          RedisLimiterState.empty.insurance).1
      else 1 :=
  C6_outage_fallback roIns (some "connecting") .ok 100000 "u" "" 1
    RedisLimiterState.empty (Or.inl (by decide)) (by decide)

/-! ## C10 — absent client handle is caught like an outage -/

/-- C10: when `this.redis` is still undefined (the dynamic import has not
resolved, so reading `.status` throws inside the `try`), `getToken` does not
propagate the error: it returns the insurance limiter's decision when
insurance is enabled, and `1` otherwise — exactly the shared-store
unavailability handling. -/
theorem C10_absent_handle
    (o : RedisOpts) (now : Int) (tokenKey blockKey : String) (req : Int)
    (s : RedisLimiterState)
    (hnb : (isKeyBlockedR now (fullBlockedKeyOf o.keyPrefix tokenKey blockKey)
      s.blockedKeys).1 = false) :
    (redisGetToken o .absent now tokenKey blockKey req s).1 =
      if o.insuranceLimiter then
        (localGetToken (insuranceOpts o) now (o.keyPrefix ++ tokenKey) "" 1 s.insurance).1
      else 1 := by
  simp [redisGetToken, hnb, redisFallback]
  by_cases hi : o.insuranceLimiter <;> simp [hi]

/-- C10 witness: an absent handle without insurance fails open with `1`. -/
theorem C10_absent_handle_witness :
    (redisGetToken roCap5 .absent 100000 "u" "" 1 RedisLimiterState.empty).1 =
      if roCap5.insuranceLimiter then
        (localGetToken (insuranceOpts roCap5) 100000 (roCap5.keyPrefix ++ "u") "" 1
          RedisLimiterState.empty.insurance).1
      else 1 :=
  C10_absent_handle roCap5 100000 "u" "" 1 RedisLimiterState.empty (by decide)

/-! ## C7 — sign of the public result -/

/-- C7 counterexample: with capacity 1, a first Redis-backed consume of 2
tokens returns −1 (negative, and flagged as success by the script), and a
first consume of 1 token returns 0 even though the script reports success —
so the result is neither always non-negative nor 0 exactly on denial. -/
theorem C7_counterexample :
    ((redisGetToken roCap1 hReady 100000 "u" "" 2 RedisLimiterState.empty).1 = -1 ∧
      ¬ (0 ≤ (-1 : Int))) ∧
    ((redisGetToken roCap1 hReady 100000 "u" "" 1 RedisLimiterState.empty).1 = 0 ∧
      (tokenBucketScript "u" 1 1 2 1000 0 60000 100000 []).1.1 = 0) :=
  ⟨⟨by decide, by decide⟩, by decide, by decide⟩

/-- `_calculateTokens` returns a positive balance whenever it does not deny,
provided the configured capacity is positive. -/
theorem local_calc_pos (o : LocalOpts) (now : Int) (k : String) (req : Int)
    (s : LocalState) (hcap : 0 < o.capacity)
    (hsucc : (localCalculateTokens o now k req s).1.1 = 0) :
    0 < (localCalculateTokens o now k req s).1.2 := by
  unfold localCalculateTokens at hsucc ⊢
  by_cases hbl : (isKeyBlockedL now (k ++ "-lock") s.blockedKeys).1
  · simp [hbl] at hsucc
  · cases hb : alookup k s.buckets with
    | none => simp [hbl, hb]; exact hcap
    | some b =>
        by_cases hpt : now - b.lastRefillTime < 1000
        · by_cases hz : min (b.tokens - req) o.capacity ≤ 0
          · simp [hbl, hb, hpt, hz] at hsucc
          · simp [hbl, hb, hpt, hz]
            omega
        · by_cases hz : min (b.tokens + Int.fdiv (now - b.lastRefillTime) 1000
              * o.tokenPerSecond - req) o.capacity ≤ 0
          · simp [hbl, hb, hpt, hz] at hsucc
          · simp [hbl, hb, hpt, hz]
            omega

theorem local_ite_nonneg (o : LocalOpts) (now : Int) (k : String) (req : Int)
    (S : LocalState) (hcap : 0 < o.capacity) :
    0 ≤ (if (localCalculateTokens o now k req S).1.1 = 0 then
      (localCalculateTokens o now k req S).1.2 else 0) := by
  by_cases hs : (localCalculateTokens o now k req S).1.1 = 0
  · have := local_calc_pos o now k req S hcap hs
    simp [hs]
    omega
  · simp [hs]

/-- The local `getToken` never returns a negative number when the capacity is
positive. -/
theorem local_result_nonneg (o : LocalOpts) (now : Int) (tk bk : String)
    (req : Int) (s : LocalState) (hcap : 0 < o.capacity) :
    0 ≤ (localGetToken o now tk bk req s).1 := by
  unfold localGetToken
  by_cases hbl : (isKeyBlockedL now (fullBlockedKeyOf o.keyPrefix tk bk)
      s.blockedKeys).1
  · simp [hbl]
  · simp only [hbl, Bool.false_eq_true, if_false]
    exact local_ite_nonneg o now (o.keyPrefix ++ tk) req _ hcap

/-- The script never reports success with a negative balance when the
requested amount is at most the capacity. -/
theorem script_success_nonneg (key : String)
    (capacity amount q unit ls ke now : Int) (st : RedisStore)
    (hamt : amount ≤ capacity)
    (hsucc : (tokenBucketScript key capacity amount q unit ls ke now st).1.1 = 0) :
    0 ≤ (tokenBucketScript key capacity amount q unit ls ke now st).1.2 := by
  by_cases hl : rget now (("\x7b" ++ key ++ "\x7d") ++ "-lock") st = some (.str "1")
  · simp [tokenBucketScript, hl] at hsucc
  · cases hstv : rget now (("\x7b" ++ key ++ "\x7d") ++ "-st") st with
    | none =>
        simp [tokenBucketScript, hl, hstv]
        omega
    | some lastV =>
        by_cases hneg :
            min (scriptRefill (toNum ((rget now key st).getD (.int 0))) (toNum lastV)
              amount q unit now).1 capacity < 0
        · simp [tokenBucketScript, hl, hstv, hneg] at hsucc
        · simp [tokenBucketScript, hl, hstv, hneg]
          omega

theorem script_ite_nonneg (key : String)
    (capacity amount q unit ls ke now : Int) (st : RedisStore)
    (hamt : amount ≤ capacity) :
    0 ≤ (if (tokenBucketScript key capacity amount q unit ls ke now st).1.1 = 0 then
      (tokenBucketScript key capacity amount q unit ls ke now st).1.2 else 0) := by
  by_cases hs : (tokenBucketScript key capacity amount q unit ls ke now st).1.1 = 0
  · simpa [hs] using script_success_nonneg key capacity amount q unit ls ke now st hamt hs
  · simp [hs]

theorem redisFallback_nonneg (o : RedisOpts) (now : Int) (ftk : String)
    (s : RedisLimiterState) (hinscap : 0 < (insuranceOpts o).capacity) :
    0 ≤ (redisFallback o now ftk s).1 := by
  unfold redisFallback
  by_cases hi : o.insuranceLimiter
  · simpa [hi] using local_result_nonneg (insuranceOpts o) now ftk "" 1 s.insurance hinscap
  · simp [hi]

/-- C7 (amended): the local consume never returns a negative number when the
configured capacity is positive, and the Redis-backed consume never returns a
negative number when `requestedTokens ≤ capacity` (and the insurance capacity
is positive) — over every handle state.  When the script denies, the
ready-path consume returns 0; but 0 is also returned on success (see the
counterexample), so `= 0` does not characterize denial. -/
theorem C7_amended
    (oL : LocalOpts) (nowL : Int) (tkL bkL : String) (reqL : Int) (sL : LocalState)
    (hcapL : 0 < oL.capacity)
    (o : RedisOpts) (h : RedisHandle) (now : Int) (tokenKey blockKey : String)
    (req : Int) (s : RedisLimiterState)
    (hamt : req ≤ o.capacity) (hinscap : 0 < (insuranceOpts o).capacity)
    (hnb : (isKeyBlockedR now (fullBlockedKeyOf o.keyPrefix tokenKey blockKey)
      s.blockedKeys).1 = false) :
    0 ≤ (localGetToken oL nowL tkL bkL reqL sL).1 ∧
    0 ≤ (redisGetToken o h now tokenKey blockKey req s).1 ∧
    ((tokenBucketScript (o.keyPrefix ++ tokenKey) o.capacity req o.tokenPerSecond
        1000 o.lockDuration 60000 now s.store).1.1 ≠ 0 →
      (redisGetToken o (.client (some "ready") .ok) now tokenKey blockKey req s).1
        = 0) := by
  refine ⟨local_result_nonneg oL nowL tkL bkL reqL sL hcapL, ?_, ?_⟩
  · unfold redisGetToken
    cases h with
    | absent => simp [hnb]; exact redisFallback_nonneg o now _ _ hinscap
    | client status bhv =>
        by_cases hr : statusReady status
        · cases bhv with
          | throws => simp [hnb, hr]; exact redisFallback_nonneg o now _ _ hinscap
          | ok =>
              simp only [hnb, Bool.false_eq_true, if_false, hr, if_true]
              exact script_ite_nonneg _ _ _ _ _ _ _ _ _ hamt
        · simp [hnb, hr]; exact redisFallback_nonneg o now _ _ hinscap
  · intro hden
    simp [redisGetToken, hnb, hden, statusReady]

/-- C7 amended witness: the amended statement at concrete inputs (a fresh
local limiter of capacity 5; a Redis limiter of capacity 5 consuming 1 from
a state whose script call denies because of an active lock marker). -/
theorem C7_amended_witness :
    0 ≤ (localGetToken oCap5 100000 "u" "" 1 LocalState.empty).1 ∧
    0 ≤ (redisGetToken roCap5 hReady 100000 "u" "" 1
      ⟨[], [((("\x7b" ++ "u" ++ "\x7d") ++ "-lock"), ⟨.str "1", 900000⟩)],
        LocalState.empty⟩).1 ∧
    ((tokenBucketScript (roCap5.keyPrefix ++ "u") roCap5.capacity 1
        roCap5.tokenPerSecond 1000 roCap5.lockDuration 60000 100000
        (⟨[], [((("\x7b" ++ "u" ++ "\x7d") ++ "-lock"), ⟨.str "1", 900000⟩)],
          LocalState.empty⟩ : RedisLimiterState).store).1.1 ≠ 0 →
      (redisGetToken roCap5 (.client (some "ready") .ok) 100000 "u" "" 1
        ⟨[], [((("\x7b" ++ "u" ++ "\x7d") ++ "-lock"), ⟨.str "1", 900000⟩)],
          LocalState.empty⟩).1 = 0) :=
  C7_amended oCap5 100000 "u" "" 1 LocalState.empty (by decide)
    roCap5 hReady 100000 "u" "" 1
    ⟨[], [((("\x7b" ++ "u" ++ "\x7d") ++ "-lock"), ⟨.str "1", 900000⟩)],
      LocalState.empty⟩
    (by decide) (by decide) (by decide)

/-! ## C4 — abuse guard at threshold N -/

/-- C4 counterexample: with threshold `N = 3`, four consumes in the same
minute yield `[10, 9, 8, 7]` — the 4th (the `(N+1)`-th) call installs the
lockout but still returns the token-bucket balance 7, not 0 (only the 5th
call returns 0) — and after the 4th call the window counter is present again
with value 4, so the guard did not leave it evicted. -/
theorem C4_counterexample :
    (runLocal oGuard3 LocalState.empty
        [.consume 100000 "u" "b" 1, .consume 100000 "u" "b" 1,
         .consume 100000 "u" "b" 1, .consume 100000 "u" "b" 1,
         .consume 100001 "u" "b" 1]).2 = [10, 9, 8, 7, 0] ∧
    ((7 : Int) ≠ 0) ∧
    alookup ("b" ++ ":consumed") (runLocal oGuard3 LocalState.empty
        [.consume 100000 "u" "b" 1, .consume 100000 "u" "b" 1,
         .consume 100000 "u" "b" 1, .consume 100000 "u" "b" 1]).1.blockedKeys
      = some (.consumedRec 4 100000) :=
  ⟨by decide, by decide, by decide⟩

theorem aset_length_le {V : Type} (k : String) (v : V) (m : List (String × V)) :
    (aset k v m).length ≤ m.length + 1 := by
  induction m with
  | nil => simp [aset]
  | cons p rest ih =>
      by_cases h : p.1 = k
      · simp [aset, h]
      · simp [aset, h]
        omega

theorem aerase_length_le {V : Type} (k : String) (m : List (String × V)) :
    (aerase k m).length ≤ m.length :=
  List.length_filter_le _ _

/-- C4 (amended): when the window counter of a block-key has already reached
the threshold inside the one-minute window, the next consume (the
`(N+1)`-th) installs the lockout *and* re-creates the window counter with
value `count + 1`, and its own result is still the token-bucket decision —
not 0; every consume issued while the lockout is active (in particular the
`(N+2)`-th) returns 0. -/
theorem C4_amended (o : LocalOpts) (now : Int) (tokenKey blockKey : String)
    (req : Int) (s : LocalState) (c fr : Int)
    (hth : o.inMemoryBlockOnConsumed ≠ 0)
    (hnb1 : alookup (fullBlockedKeyOf o.keyPrefix tokenKey blockKey) s.blockedKeys = none)
    (hnb2 : alookup (fullBlockedKeyOf o.keyPrefix tokenKey blockKey ++ "-lock")
      s.blockedKeys = none)
    (hcnt : alookup (fullBlockedKeyOf o.keyPrefix tokenKey blockKey ++ ":consumed")
      s.blockedKeys = some (.consumedRec c fr))
    (hcge : o.inMemoryBlockOnConsumed ≤ c)
    (hfr : fr ≠ 0) (hwin : now - fr < 60000)
    (hsize : s.blockedKeys.length ≤ 997)
    (halk : alookup ((o.keyPrefix ++ tokenKey) ++ "-lock") s.blockedKeys = none)
    (halkk : alookup (((o.keyPrefix ++ tokenKey) ++ "-lock") ++ "-lock")
      s.blockedKeys = none)
    (hne1 : ((o.keyPrefix ++ tokenKey) ++ "-lock")
      ≠ fullBlockedKeyOf o.keyPrefix tokenKey blockKey)
    (hne2 : ((o.keyPrefix ++ tokenKey) ++ "-lock")
      ≠ fullBlockedKeyOf o.keyPrefix tokenKey blockKey ++ ":consumed")
    (hne3 : (((o.keyPrefix ++ tokenKey) ++ "-lock") ++ "-lock")
      ≠ fullBlockedKeyOf o.keyPrefix tokenKey blockKey)
    (hne4 : (((o.keyPrefix ++ tokenKey) ++ "-lock") ++ "-lock")
      ≠ fullBlockedKeyOf o.keyPrefix tokenKey blockKey ++ ":consumed") :
    alookup (fullBlockedKeyOf o.keyPrefix tokenKey blockKey)
        (localGetToken o now tokenKey blockKey req s).2.blockedKeys
      = some (.blockUntil (now + o.inMemoryBlockDuration * 1000)) ∧
    alookup (fullBlockedKeyOf o.keyPrefix tokenKey blockKey ++ ":consumed")
        (localGetToken o now tokenKey blockKey req s).2.blockedKeys
      = some (.consumedRec (c + 1) fr) ∧
    (localGetToken o now tokenKey blockKey req s).1 =
      (if (localCalculateTokens o now (o.keyPrefix ++ tokenKey) req
            ⟨s.buckets, guardStepL o now (fullBlockedKeyOf o.keyPrefix tokenKey blockKey)
              s.blockedKeys⟩).1.1 = 0 then
        (localCalculateTokens o now (o.keyPrefix ++ tokenKey) req
            ⟨s.buckets, guardStepL o now (fullBlockedKeyOf o.keyPrefix tokenKey blockKey)
              s.blockedKeys⟩).1.2
      else 0) ∧
    (∀ t' req', t' < now + o.inMemoryBlockDuration * 1000 →
      (localGetToken o t' tokenKey blockKey req'
        (localGetToken o now tokenKey blockKey req s).2).1 = 0) := by
  set fbk := fullBlockedKeyOf o.keyPrefix tokenKey blockKey with hfbk
  set ftk := o.keyPrefix ++ tokenKey with hftk
  set ckey := fbk ++ ":consumed" with hckey
  have hfc : fbk ≠ ckey := string_ne_append (by decide)
  -- the guard step: reset branch is skipped, the threshold branch fires,
  -- the counter is re-created, the sweep is not triggered
  have hguard : guardStepL o now fbk s.blockedKeys =
      aset ckey (.consumedRec (c + 1) fr)
        (aset fbk (.blockUntil (now + o.inMemoryBlockDuration * 1000))
          (aerase ckey s.blockedKeys)) := by
    have hsz1 := aerase_length_le ckey s.blockedKeys
    have hsz2 := aset_length_le fbk
      (BlockVal.blockUntil (now + o.inMemoryBlockDuration * 1000))
      (aerase ckey s.blockedKeys)
    have hsz3 := aset_length_le ckey (BlockVal.consumedRec (c + 1) fr)
      (aset fbk (BlockVal.blockUntil (now + o.inMemoryBlockDuration * 1000))
        (aerase ckey s.blockedKeys))
    have hw2 : ¬(now - fr ≥ 60000) := by omega
    have hsz' : ¬((aset ckey (BlockVal.consumedRec (c + 1) fr)
        (aset fbk (BlockVal.blockUntil (now + o.inMemoryBlockDuration * 1000))
          (aerase ckey s.blockedKeys))).length > 999) := by omega
    simp only [guardStepL, ← hckey, hcnt]
    simp [hfr, hw2, hcge, hsz']
  set BK2 := aset ckey (.consumedRec (c + 1) fr)
    (aset fbk (.blockUntil (now + o.inMemoryBlockDuration * 1000))
      (aerase ckey s.blockedKeys)) with hBK2
  have hlfbk : alookup fbk BK2 =
      some (.blockUntil (now + o.inMemoryBlockDuration * 1000)) := by
    rw [hBK2, alookup_aset_ne hfc, alookup_aset_self]
  have hlckey : alookup ckey BK2 = some (.consumedRec (c + 1) fr) := by
    rw [hBK2, alookup_aset_self]
  have hlk2 : alookup (ftk ++ "-lock") BK2 = none := by
    rw [hBK2, alookup_aset_ne hne2, alookup_aset_ne hne1,
      alookup_aerase_ne (fun he => hne2 he), halk]
  have hlkk2 : alookup ((ftk ++ "-lock") ++ "-lock") BK2 = none := by
    rw [hBK2, alookup_aset_ne hne4, alookup_aset_ne hne3,
      alookup_aerase_ne (fun he => hne4 he), halkk]
  have htop : isKeyBlockedL now fbk s.blockedKeys = (false, s.blockedKeys) := by
    simp [isKeyBlockedL, hnb1, hnb2]
  -- the first call, step by step
  have hcall : localGetToken o now tokenKey blockKey req s =
      (if (localCalculateTokens o now ftk req ⟨s.buckets, BK2⟩).1.1 = 0 then
        (localCalculateTokens o now ftk req ⟨s.buckets, BK2⟩).1.2
      else 0, (localCalculateTokens o now ftk req ⟨s.buckets, BK2⟩).2) := by
    simp only [localGetToken, ← hfbk, ← hftk, htop, hguard, ← hBK2]
    simp [hth]
  have hcalcb : isKeyBlockedL now (ftk ++ "-lock") BK2 = (false, BK2) := by
    simp [isKeyBlockedL, hlk2, hlkk2]
  -- the blocked-keys map after the bucket step keeps the lockout and counter
  have hafter :
      alookup fbk (localCalculateTokens o now ftk req ⟨s.buckets, BK2⟩).2.blockedKeys
        = some (.blockUntil (now + o.inMemoryBlockDuration * 1000)) ∧
      alookup ckey (localCalculateTokens o now ftk req ⟨s.buckets, BK2⟩).2.blockedKeys
        = some (.consumedRec (c + 1) fr) := by
    simp only [localCalculateTokens, hcalcb]
    cases hb : alookup ftk s.buckets with
    | none => simp [hlfbk, hlckey]
    | some b =>
        by_cases hpt : now - b.lastRefillTime < 1000
        · by_cases hz : min (b.tokens - req) o.capacity ≤ 0
          · by_cases hld : o.lockDuration > 0 <;>
              simp [hb, hpt, hz, hld, alookup_aset_ne (Ne.symm hne1),
                alookup_aset_ne (Ne.symm hne2), hlfbk, hlckey]
          · simp [hb, hpt, hz, hlfbk, hlckey]
        · by_cases hz : min (b.tokens + Int.fdiv (now - b.lastRefillTime) 1000
              * o.tokenPerSecond - req) o.capacity ≤ 0
          · by_cases hld : o.lockDuration > 0 <;>
              simp [hb, hpt, hz, hld, alookup_aset_ne (Ne.symm hne1),
                alookup_aset_ne (Ne.symm hne2), hlfbk, hlckey]
          · simp [hb, hpt, hz, hlfbk, hlckey]
  refine ⟨?_, ?_, ?_, ?_⟩
  · rw [hcall]; exact hafter.1
  · rw [hcall]; exact hafter.2
  · rw [hcall, hguard]
  · intro t' req' ht'
    rw [hcall]
    simp only [localGetToken, ← hfbk]
    simp [isKeyBlockedL, hafter.1, numLt, ht']

/-- C4 amended witness: the amended statement at the concrete state reached
after three consumes with threshold 3 (counter at 3, window open). -/
theorem C4_amended_witness :
    (alookup (fullBlockedKeyOf oGuard3.keyPrefix "u" "b")
        (localGetToken oGuard3 100000 "u" "b" 1
          ⟨[("u", ⟨8, 100000, 160000⟩)], [("b:consumed", .consumedRec 3 100000)]⟩
          ).2.blockedKeys
      = some (.blockUntil (100000 + oGuard3.inMemoryBlockDuration * 1000))) ∧
    (alookup (fullBlockedKeyOf oGuard3.keyPrefix "u" "b" ++ ":consumed")
        (localGetToken oGuard3 100000 "u" "b" 1
          ⟨[("u", ⟨8, 100000, 160000⟩)], [("b:consumed", .consumedRec 3 100000)]⟩
          ).2.blockedKeys
      = some (.consumedRec (3 + 1) 100000)) ∧
    ((localGetToken oGuard3 100000 "u" "b" 1
        ⟨[("u", ⟨8, 100000, 160000⟩)], [("b:consumed", .consumedRec 3 100000)]⟩).1 =
      (if (localCalculateTokens oGuard3 100000 (oGuard3.keyPrefix ++ "u") 1
            ⟨[("u", ⟨8, 100000, 160000⟩)],
              guardStepL oGuard3 100000 (fullBlockedKeyOf oGuard3.keyPrefix "u" "b")
                [("b:consumed", .consumedRec 3 100000)]⟩).1.1 = 0 then
        (localCalculateTokens oGuard3 100000 (oGuard3.keyPrefix ++ "u") 1
            ⟨[("u", ⟨8, 100000, 160000⟩)],
              guardStepL oGuard3 100000 (fullBlockedKeyOf oGuard3.keyPrefix "u" "b")
                [("b:consumed", .consumedRec 3 100000)]⟩).1.2
      else 0)) ∧
    (∀ t' req', t' < 100000 + oGuard3.inMemoryBlockDuration * 1000 →
      (localGetToken oGuard3 t' "u" "b" req'
        (localGetToken oGuard3 100000 "u" "b" 1
          ⟨[("u", ⟨8, 100000, 160000⟩)],
            [("b:consumed", .consumedRec 3 100000)]⟩).2).1 = 0) :=
  C4_amended oGuard3 100000 "u" "b" 1
    ⟨[("u", ⟨8, 100000, 160000⟩)], [("b:consumed", .consumedRec 3 100000)]⟩ 3 100000
    (by decide) (by decide) (by decide) (by decide) (by decide) (by decide)
    (by decide) (by decide) (by decide) (by decide) (by decide) (by decide)
    (by decide) (by decide)

/-! ## C5 — post-denial lockout in the local store -/

/-- C5: in the local store with `lockDuration > 0` (abuse guard off), a
denied consume returns 0 and installs the lock; every consume on the same key
strictly before `now + lockDuration·1000` returns 0 and leaves the state
completely unchanged (no refill is recomputed); and any consume at or after
that instant behaves exactly as it would with the lock entry erased — normal
evaluation resumes on the preserved bucket state. -/
theorem C5_lockout (o : LocalOpts) (now : Int) (tokenKey : String) (req : Int)
    (s : LocalState) (b : Bucket)
    (hld : 0 < o.lockDuration)
    (hguard : o.inMemoryBlockOnConsumed = 0)
    (h1 : alookup (o.keyPrefix ++ tokenKey) s.blockedKeys = none)
    (h2 : alookup ((o.keyPrefix ++ tokenKey) ++ "-lock") s.blockedKeys = none)
    (h3 : alookup (((o.keyPrefix ++ tokenKey) ++ "-lock") ++ "-lock") s.blockedKeys = none)
    (hb : alookup (o.keyPrefix ++ tokenKey) s.buckets = some b)
    (hden : min (if now - b.lastRefillTime < 1000 then b.tokens - req
        else b.tokens + Int.fdiv (now - b.lastRefillTime) 1000 * o.tokenPerSecond - req)
      o.capacity ≤ 0) :
    (localGetToken o now tokenKey "" req s).1 = 0 ∧
    (∀ t' req', t' < now + o.lockDuration * 1000 →
      localGetToken o t' tokenKey "" req' (localGetToken o now tokenKey "" req s).2
        = (0, (localGetToken o now tokenKey "" req s).2)) ∧
    (∀ t' req', ¬ t' < now + o.lockDuration * 1000 →
      localGetToken o t' tokenKey "" req' (localGetToken o now tokenKey "" req s).2
        = localGetToken o t' tokenKey "" req'
            ⟨(localGetToken o now tokenKey "" req s).2.buckets,
              aerase ((o.keyPrefix ++ tokenKey) ++ "-lock")
                (localGetToken o now tokenKey "" req s).2.blockedKeys⟩) := by
  set ftk := o.keyPrefix ++ tokenKey with hftk
  set lockK := ftk ++ "-lock" with hlockK
  have hfl : ftk ≠ lockK := string_ne_append (by decide)
  have hll : lockK ≠ lockK ++ "-lock" := string_ne_append (by decide)
  have hfb : fullBlockedKeyOf o.keyPrefix tokenKey "" = ftk := by
    simp [fullBlockedKeyOf, hftk]
  have htop : isKeyBlockedL now ftk s.blockedKeys = (false, s.blockedKeys) := by
    simp [isKeyBlockedL, h1, ← hlockK, h2]
  -- the denying `_calculateTokens` call installs the lock and returns (1, 0)
  have hcalc : (localCalculateTokens o now ftk req s).1 = (1, 0) ∧
      (localCalculateTokens o now ftk req s).2.blockedKeys
        = aset lockK (.blockUntil (now + o.lockDuration * 1000)) s.blockedKeys := by
    have hkb : isKeyBlockedL now lockK s.blockedKeys = (false, s.blockedKeys) := by
      simp [isKeyBlockedL, h2, ← hlockK, h3]
    by_cases hpt : now - b.lastRefillTime < 1000
    · rw [if_pos hpt] at hden
      constructor <;>
        simp [localCalculateTokens, ← hlockK, hkb, hb, hpt, hden, hld]
    · rw [if_neg hpt] at hden
      constructor <;>
        simp [localCalculateTokens, ← hlockK, hkb, hb, hpt, hden, hld]
  have hcall : localGetToken o now tokenKey "" req s
      = (0, (localCalculateTokens o now ftk req s).2) := by
    simp only [localGetToken, hfb, ← hftk, htop, hguard]
    simp [hcalc.1]
  have hS1ftk : alookup ftk (localCalculateTokens o now ftk req s).2.blockedKeys
      = none := by
    rw [hcalc.2, alookup_aset_ne hfl, h1]
  have hS1lock : alookup lockK (localCalculateTokens o now ftk req s).2.blockedKeys
      = some (.blockUntil (now + o.lockDuration * 1000)) := by
    rw [hcalc.2, alookup_aset_self]
  have hS1lockk : alookup (lockK ++ "-lock")
      (localCalculateTokens o now ftk req s).2.blockedKeys = none := by
    rw [hcalc.2, alookup_aset_ne (Ne.symm hll)]
    rw [hlockK] at h3 ⊢
    exact h3
  refine ⟨by rw [hcall], ?_, ?_⟩
  · intro t' req' ht'
    rw [hcall]
    simp only [localGetToken, hfb, ← hftk]
    simp [isKeyBlockedL, hS1ftk, hS1lock, numLt, ht']
  · intro t' req' hge
    rw [hcall]
    have hA : isKeyBlockedL t' ftk (localCalculateTokens o now ftk req s).2.blockedKeys
        = (false, aerase lockK (localCalculateTokens o now ftk req s).2.blockedKeys) := by
      simp [isKeyBlockedL, hS1ftk, ← hlockK, hS1lock, numLt, hge]
    have hB : isKeyBlockedL t' ftk
        (aerase lockK (localCalculateTokens o now ftk req s).2.blockedKeys)
        = (false, aerase lockK (localCalculateTokens o now ftk req s).2.blockedKeys) := by
      simp [isKeyBlockedL, alookup_aerase_ne hfl, hS1ftk, ← hlockK,
        alookup_aerase_self]
    simp only [localGetToken, hfb, ← hftk, hA, hB]

/-- C5 witness: capacity 2, rate 2/s, `lockDuration = 2` s; the bucket is at
0 tokens with a consume at t = 100000 denying, and the statement holds at
that concrete state. -/
theorem C5_lockout_witness :
    (localGetToken oLock2 100000 "u" "" 1
      ⟨[("u", ⟨0, 100000, 160000⟩)], []⟩).1 = 0 ∧
    (∀ t' req', t' < 100000 + oLock2.lockDuration * 1000 →
      localGetToken oLock2 t' "u" "" req'
          (localGetToken oLock2 100000 "u" "" 1
            ⟨[("u", ⟨0, 100000, 160000⟩)], []⟩).2
        = (0, (localGetToken oLock2 100000 "u" "" 1
            ⟨[("u", ⟨0, 100000, 160000⟩)], []⟩).2)) ∧
    (∀ t' req', ¬ t' < 100000 + oLock2.lockDuration * 1000 →
      localGetToken oLock2 t' "u" "" req'
          (localGetToken oLock2 100000 "u" "" 1
            ⟨[("u", ⟨0, 100000, 160000⟩)], []⟩).2
        = localGetToken oLock2 t' "u" "" req'
            ⟨(localGetToken oLock2 100000 "u" "" 1
                ⟨[("u", ⟨0, 100000, 160000⟩)], []⟩).2.buckets,
              aerase ((oLock2.keyPrefix ++ "u") ++ "-lock")
                (localGetToken oLock2 100000 "u" "" 1
                  ⟨[("u", ⟨0, 100000, 160000⟩)], []⟩).2.blockedKeys⟩) :=
  C5_lockout oLock2 100000 "u" 1 ⟨[("u", ⟨0, 100000, 160000⟩)], []⟩
    ⟨0, 100000, 160000⟩ (by decide) (by decide) (by decide) (by decide) (by decide)
    (by decide) (by decide)

/-! ## C8 — zero-token requests -/

/-- C8 counterexample: with the abuse guard at threshold 2, four identical
zero-token consumes at the same instant return `[5, 5, 5, 0]` — the
zero-token request advances the window counter and triggers the lockout, so
repeating it does not yield the same result as issuing it once, and the call
does not always succeed. -/
theorem C8_counterexample :
    (runLocal oGuard2 LocalState.empty
        [.consume 100000 "u" "" 0, .consume 100000 "u" "" 0,
         .consume 100000 "u" "" 0, .consume 100000 "u" "" 0]).2 = [5, 5, 5, 0] ∧
    ((0 : Int) ≠ 5) :=
  ⟨by decide, by decide⟩

/-- Zero-token idempotence, innermost step: with clean block entries for the
key, its lock and its double-lock, a second identical zero-token `getToken`
returns the same result and the same state. -/
theorem zero_bucket_idem (o : LocalOpts) (t : Int) (tokenKey : String)
    (buckets : List (String × Bucket)) (bk : BlockMap)
    (hguard : o.inMemoryBlockOnConsumed = 0) (hld : o.lockDuration = 0)
    (hcap : 0 < o.capacity)
    (h1 : alookup (o.keyPrefix ++ tokenKey) bk = none)
    (h2 : alookup ((o.keyPrefix ++ tokenKey) ++ "-lock") bk = none)
    (h3 : alookup (((o.keyPrefix ++ tokenKey) ++ "-lock") ++ "-lock") bk = none) :
    localGetToken o t tokenKey "" 0
        (localGetToken o t tokenKey "" 0 ⟨buckets, bk⟩).2
      = localGetToken o t tokenKey "" 0 ⟨buckets, bk⟩ := by
  have hfb : fullBlockedKeyOf o.keyPrefix tokenKey "" = o.keyPrefix ++ tokenKey := by
    simp [fullBlockedKeyOf]
  have htop : isKeyBlockedL t (o.keyPrefix ++ tokenKey) bk = (false, bk) := by
    simp [isKeyBlockedL, h1, h2]
  have hkb : isKeyBlockedL t ((o.keyPrefix ++ tokenKey) ++ "-lock") bk = (false, bk) := by
    simp [isKeyBlockedL, h2, h3]
  have hnc : ¬ (o.capacity ≤ 0) := by omega
  cases hbu : alookup (o.keyPrefix ++ tokenKey) buckets with
  | none =>
      have hfirst : localGetToken o t tokenKey "" 0 ⟨buckets, bk⟩
          = (o.capacity, ⟨aset (o.keyPrefix ++ tokenKey) ⟨o.capacity, t, t + 60000⟩
              buckets, bk⟩) := by
        simp only [localGetToken, hfb, htop, hguard]
        simp [localCalculateTokens, hkb, hbu]
      rw [hfirst]
      simp only [localGetToken, hfb, htop, hguard]
      simp [localCalculateTokens, hkb, alookup_aset_self, aset_aset_self, min_self, hnc]
  | some b =>
      by_cases hpt : t - b.lastRefillTime < 1000
      · by_cases hz : min b.tokens o.capacity ≤ 0
        · have hfirst : localGetToken o t tokenKey "" 0 ⟨buckets, bk⟩
              = (0, ⟨aset (o.keyPrefix ++ tokenKey)
                  ⟨min b.tokens o.capacity, b.lastRefillTime, b.timerAt⟩ buckets, bk⟩) := by
            simp only [localGetToken, hfb, htop, hguard]
            simp [localCalculateTokens, hkb, hbu, hpt, hz, hld]
          rw [hfirst]
          simp only [localGetToken, hfb, htop, hguard]
          simp [localCalculateTokens, hkb, alookup_aset_self, aset_aset_self, hpt,
            min_assoc, min_self, hz, hld]
        · have hfirst : localGetToken o t tokenKey "" 0 ⟨buckets, bk⟩
              = (min b.tokens o.capacity, ⟨aset (o.keyPrefix ++ tokenKey)
                  ⟨min b.tokens o.capacity, b.lastRefillTime, b.timerAt⟩ buckets, bk⟩) := by
            simp only [localGetToken, hfb, htop, hguard]
            simp [localCalculateTokens, hkb, hbu, hpt, hz]
          rw [hfirst]
          simp only [localGetToken, hfb, htop, hguard]
          simp [localCalculateTokens, hkb, alookup_aset_self, aset_aset_self, hpt,
            min_assoc, min_self, hz]
      · have hpt' : t - (b.lastRefillTime
            + Int.fdiv (t - b.lastRefillTime) 1000 * 1000) < 1000 := by
          have hdiv : Int.fdiv (t - b.lastRefillTime) 1000
              = (t - b.lastRefillTime) / 1000 := Int.fdiv_eq_ediv _ (by norm_num)
          have e2 : 0 ≤ (t - b.lastRefillTime) % 1000 := Int.emod_nonneg _ (by norm_num)
          have e3 : (t - b.lastRefillTime) % 1000 < 1000 :=
            Int.emod_lt_of_pos _ (by norm_num)
          have e1 : (t - b.lastRefillTime) % 1000
              = (t - b.lastRefillTime) - 1000 * ((t - b.lastRefillTime) / 1000) :=
            Int.emod_def _ _
          rw [hdiv]
          omega
        by_cases hz : min (b.tokens + Int.fdiv (t - b.lastRefillTime) 1000
            * o.tokenPerSecond) o.capacity ≤ 0
        · have hfirst : localGetToken o t tokenKey "" 0 ⟨buckets, bk⟩
              = (0, ⟨aset (o.keyPrefix ++ tokenKey)
                  ⟨min (b.tokens + Int.fdiv (t - b.lastRefillTime) 1000
                      * o.tokenPerSecond) o.capacity,
                    b.lastRefillTime + Int.fdiv (t - b.lastRefillTime) 1000 * 1000,
                    b.timerAt⟩ buckets, bk⟩) := by
            simp only [localGetToken, hfb, htop, hguard]
            simp [localCalculateTokens, hkb, hbu, hpt, hz, hld]
          rw [hfirst]
          simp only [localGetToken, hfb, htop, hguard]
          simp [localCalculateTokens, hkb, alookup_aset_self, aset_aset_self, hpt',
            min_assoc, min_self, hz, hld]
        · have hfirst : localGetToken o t tokenKey "" 0 ⟨buckets, bk⟩
              = (min (b.tokens + Int.fdiv (t - b.lastRefillTime) 1000
                    * o.tokenPerSecond) o.capacity,
                  ⟨aset (o.keyPrefix ++ tokenKey)
                    ⟨min (b.tokens + Int.fdiv (t - b.lastRefillTime) 1000
                        * o.tokenPerSecond) o.capacity,
                      b.lastRefillTime + Int.fdiv (t - b.lastRefillTime) 1000 * 1000,
                      b.timerAt⟩ buckets, bk⟩) := by
            simp only [localGetToken, hfb, htop, hguard]
            simp [localCalculateTokens, hkb, hbu, hpt, hz]
          rw [hfirst]
          simp only [localGetToken, hfb, htop, hguard]
          simp [localCalculateTokens, hkb, alookup_aset_self, aset_aset_self, hpt',
            min_assoc, min_self, hz]

theorem string_ne_append2 (s a b : String) (ha : 0 < a.length) :
    s ≠ (s ++ a) ++ b := by
  apply string_ne_of_length
  simp [String.length_append]
  omega

/-- Zero-token idempotence given only that the key itself and its lock key
have no active entry shape to process (the double-lock entry may exist). -/
theorem zero_lock2_idem (o : LocalOpts) (t : Int) (tokenKey : String)
    (buckets : List (String × Bucket)) (bk : BlockMap)
    (hguard : o.inMemoryBlockOnConsumed = 0) (hld : o.lockDuration = 0)
    (hcap : 0 < o.capacity)
    (h1 : alookup (o.keyPrefix ++ tokenKey) bk = none)
    (h2 : alookup ((o.keyPrefix ++ tokenKey) ++ "-lock") bk = none) :
    localGetToken o t tokenKey "" 0
        (localGetToken o t tokenKey "" 0 ⟨buckets, bk⟩).2
      = localGetToken o t tokenKey "" 0 ⟨buckets, bk⟩ := by
  have hfb : fullBlockedKeyOf o.keyPrefix tokenKey "" = o.keyPrefix ++ tokenKey := by
    simp [fullBlockedKeyOf]
  have hflkk : (o.keyPrefix ++ tokenKey)
      ≠ (((o.keyPrefix ++ tokenKey) ++ "-lock") ++ "-lock") :=
    string_ne_append2 _ "-lock" "-lock" (by decide)
  have hlkk : ((o.keyPrefix ++ tokenKey) ++ "-lock")
      ≠ (((o.keyPrefix ++ tokenKey) ++ "-lock") ++ "-lock") :=
    string_ne_append (by decide)
  have htop : isKeyBlockedL t (o.keyPrefix ++ tokenKey) bk = (false, bk) := by
    simp [isKeyBlockedL, h1, h2]
  cases hkk : alookup (((o.keyPrefix ++ tokenKey) ++ "-lock") ++ "-lock") bk with
  | none => exact zero_bucket_idem o t tokenKey buckets bk hguard hld hcap h1 h2 hkk
  | some w =>
      by_cases hnw : numLt t w
      · have hkb : isKeyBlockedL t ((o.keyPrefix ++ tokenKey) ++ "-lock") bk
            = (true, bk) := by
          simp [isKeyBlockedL, h2, hkk, hnw]
        have hfirst : localGetToken o t tokenKey "" 0 ⟨buckets, bk⟩
            = (0, ⟨buckets, bk⟩) := by
          simp only [localGetToken, hfb, htop, hguard]
          simp [localCalculateTokens, hkb]
        rw [hfirst]
        exact hfirst
      · have h1' : alookup (o.keyPrefix ++ tokenKey)
            (aerase (((o.keyPrefix ++ tokenKey) ++ "-lock") ++ "-lock") bk) = none := by
          rw [alookup_aerase_ne hflkk, h1]
        have h2' : alookup ((o.keyPrefix ++ tokenKey) ++ "-lock")
            (aerase (((o.keyPrefix ++ tokenKey) ++ "-lock") ++ "-lock") bk) = none := by
          rw [alookup_aerase_ne hlkk, h2]
        have hkb : isKeyBlockedL t ((o.keyPrefix ++ tokenKey) ++ "-lock") bk
            = (false, aerase (((o.keyPrefix ++ tokenKey) ++ "-lock") ++ "-lock") bk) := by
          simp [isKeyBlockedL, h2, hkk, hnw]
        have hkb' : isKeyBlockedL t ((o.keyPrefix ++ tokenKey) ++ "-lock")
            (aerase (((o.keyPrefix ++ tokenKey) ++ "-lock") ++ "-lock") bk)
            = (false, aerase (((o.keyPrefix ++ tokenKey) ++ "-lock") ++ "-lock") bk) := by
          simp [isKeyBlockedL, h2', alookup_aerase_self]
        have htop' : isKeyBlockedL t (o.keyPrefix ++ tokenKey)
            (aerase (((o.keyPrefix ++ tokenKey) ++ "-lock") ++ "-lock") bk)
            = (false, aerase (((o.keyPrefix ++ tokenKey) ++ "-lock") ++ "-lock") bk) := by
          simp [isKeyBlockedL, h1', h2']
        have hered : localGetToken o t tokenKey "" 0 ⟨buckets, bk⟩
            = localGetToken o t tokenKey "" 0
                ⟨buckets, aerase (((o.keyPrefix ++ tokenKey) ++ "-lock") ++ "-lock") bk⟩ := by
          simp only [localGetToken, hfb, htop, htop', hguard]
          simp [localCalculateTokens, hkb, hkb']
        rw [hered]
        exact zero_bucket_idem o t tokenKey buckets _ hguard hld hcap h1' h2'
          (alookup_aerase_self _ _)

/-- Zero-token idempotence given only that the key itself has no entry. -/
theorem zero_lock_idem (o : LocalOpts) (t : Int) (tokenKey : String)
    (buckets : List (String × Bucket)) (bk : BlockMap)
    (hguard : o.inMemoryBlockOnConsumed = 0) (hld : o.lockDuration = 0)
    (hcap : 0 < o.capacity)
    (h1 : alookup (o.keyPrefix ++ tokenKey) bk = none) :
    localGetToken o t tokenKey "" 0
        (localGetToken o t tokenKey "" 0 ⟨buckets, bk⟩).2
      = localGetToken o t tokenKey "" 0 ⟨buckets, bk⟩ := by
  have hfb : fullBlockedKeyOf o.keyPrefix tokenKey "" = o.keyPrefix ++ tokenKey := by
    simp [fullBlockedKeyOf]
  have hfl : (o.keyPrefix ++ tokenKey) ≠ (o.keyPrefix ++ tokenKey) ++ "-lock" :=
    string_ne_append (by decide)
  cases hk : alookup ((o.keyPrefix ++ tokenKey) ++ "-lock") bk with
  | none => exact zero_lock2_idem o t tokenKey buckets bk hguard hld hcap h1 hk
  | some u =>
      by_cases hnu : numLt t u
      · have htop : isKeyBlockedL t (o.keyPrefix ++ tokenKey) bk = (true, bk) := by
          simp [isKeyBlockedL, h1, hk, hnu]
        have hfirst : localGetToken o t tokenKey "" 0 ⟨buckets, bk⟩
            = (0, ⟨buckets, bk⟩) := by
          simp only [localGetToken, hfb, htop]
          simp
        rw [hfirst]
        exact hfirst
      · have h1' : alookup (o.keyPrefix ++ tokenKey)
            (aerase ((o.keyPrefix ++ tokenKey) ++ "-lock") bk) = none := by
          rw [alookup_aerase_ne hfl, h1]
        have h2' : alookup ((o.keyPrefix ++ tokenKey) ++ "-lock")
            (aerase ((o.keyPrefix ++ tokenKey) ++ "-lock") bk) = none :=
          alookup_aerase_self _ _
        have htop : isKeyBlockedL t (o.keyPrefix ++ tokenKey) bk
            = (false, aerase ((o.keyPrefix ++ tokenKey) ++ "-lock") bk) := by
          simp [isKeyBlockedL, h1, hk, hnu]
        have htop' : isKeyBlockedL t (o.keyPrefix ++ tokenKey)
            (aerase ((o.keyPrefix ++ tokenKey) ++ "-lock") bk)
            = (false, aerase ((o.keyPrefix ++ tokenKey) ++ "-lock") bk) := by
          simp [isKeyBlockedL, h1', h2']
        have hered : localGetToken o t tokenKey "" 0 ⟨buckets, bk⟩
            = localGetToken o t tokenKey "" 0
                ⟨buckets, aerase ((o.keyPrefix ++ tokenKey) ++ "-lock") bk⟩ := by
          simp only [localGetToken, hfb, htop, htop']
        rw [hered]
        exact zero_lock2_idem o t tokenKey buckets _ hguard hld hcap h1' h2'

/-- C8 (amended): with the abuse guard disabled and `lockDuration = 0`
(capacity positive), a zero-token consume is idempotent: repeating the call
at the same instant returns the same result and leaves the state exactly as
after the first call.  (With the guard enabled, zero-token requests advance
the window counter and can trigger a lockout — see the counterexample — and
a zero-token request on a bucket whose stored balance is ≤ 0 is treated as a
denial returning 0.) -/
theorem C8_amended (o : LocalOpts) (t : Int) (tokenKey : String) (s : LocalState)
    (hguard : o.inMemoryBlockOnConsumed = 0) (hld : o.lockDuration = 0)
    (hcap : 0 < o.capacity) :
    localGetToken o t tokenKey "" 0 (localGetToken o t tokenKey "" 0 s).2
      = localGetToken o t tokenKey "" 0 s := by
  obtain ⟨buckets, bk⟩ := s
  have hfb : fullBlockedKeyOf o.keyPrefix tokenKey "" = o.keyPrefix ++ tokenKey := by
    simp [fullBlockedKeyOf]
  have hfc : (o.keyPrefix ++ tokenKey) ≠ (o.keyPrefix ++ tokenKey) ++ ":consumed" :=
    string_ne_append (by decide)
  cases hv : alookup (o.keyPrefix ++ tokenKey) bk with
  | none => exact zero_lock_idem o t tokenKey buckets bk hguard hld hcap hv
  | some v =>
      by_cases hnv : numLt t v
      · have htop : isKeyBlockedL t (o.keyPrefix ++ tokenKey) bk = (true, bk) := by
          simp [isKeyBlockedL, hv, hnv]
        have hfirst : localGetToken o t tokenKey "" 0 ⟨buckets, bk⟩
            = (0, ⟨buckets, bk⟩) := by
          simp only [localGetToken, hfb, htop]
          simp
        rw [hfirst]
        exact hfirst
      · have h1' : alookup (o.keyPrefix ++ tokenKey)
            (aerase ((o.keyPrefix ++ tokenKey) ++ ":consumed")
              (aerase (o.keyPrefix ++ tokenKey) bk)) = none := by
          rw [alookup_aerase_ne hfc, alookup_aerase_self]
        have htopeq : isKeyBlockedL t (o.keyPrefix ++ tokenKey) bk
            = isKeyBlockedL t (o.keyPrefix ++ tokenKey)
                (aerase ((o.keyPrefix ++ tokenKey) ++ ":consumed")
                  (aerase (o.keyPrefix ++ tokenKey) bk)) := by
          simp [isKeyBlockedL, hv, hnv, h1']
        have hered : localGetToken o t tokenKey "" 0 ⟨buckets, bk⟩
            = localGetToken o t tokenKey "" 0
                ⟨buckets, aerase ((o.keyPrefix ++ tokenKey) ++ ":consumed")
                  (aerase (o.keyPrefix ++ tokenKey) bk)⟩ := by
          simp only [localGetToken, hfb, htopeq]
        rw [hered]
        exact zero_lock_idem o t tokenKey buckets _ hguard hld hcap h1'

/-- C8 amended witness: zero-token idempotence at a concrete state (a bucket
holding 3 tokens, a stale lock entry in the map). -/
theorem C8_amended_witness :
    localGetToken oCap5 100000 "u" "" 0
        (localGetToken oCap5 100000 "u" "" 0
          ⟨[("u", ⟨3, 99500, 159500⟩)], [("u-lock", .blockUntil 99000)]⟩).2
      = localGetToken oCap5 100000 "u" "" 0
          ⟨[("u", ⟨3, 99500, 159500⟩)], [("u-lock", .blockUntil 99000)]⟩ :=
  C8_amended oCap5 100000 "u"
    ⟨[("u", ⟨3, 99500, 159500⟩)], [("u-lock", .blockUntil 99000)]⟩
    (by decide) (by decide) (by decide)

/-! ## C9 — local bucket eviction timer -/

/-- C9 counterexample: the local store's cleanup timer fires 60 s after
bucket creation regardless of accesses.  In this trace the bucket is touched
at t = 130000 (result 39, a partially drained bucket), the timer installed at
creation (t = 100000) fires at t = 160000 — only 30 s after the last touch —
and deletes the bucket, so the next consume reinitializes a full bucket and
returns the capacity 100 instead of the refilled balance. -/
theorem C9_counterexample :
    (runLocal oCap100 LocalState.empty
        [.consume 100000 "u" "" 1, .consume 100100 "u" "" 90,
         .consume 130000 "u" "" 1]).2 = [100, 10, 39] ∧
    alookup "u" (runLocal oCap100 LocalState.empty
        [.consume 100000 "u" "" 1, .consume 100100 "u" "" 90,
         .consume 130000 "u" "" 1]).1.buckets
      = some ⟨39, 130000, 160000⟩ ∧
    ((160000 : Int) - 130000 < 60000) ∧
    alookup "u" (runLocal oCap100 LocalState.empty
        [.consume 100000 "u" "" 1, .consume 100100 "u" "" 90,
         .consume 130000 "u" "" 1, .timerFire 160000 "u"]).1.buckets = none ∧
    (runLocal oCap100 LocalState.empty
        [.consume 100000 "u" "" 1, .consume 100100 "u" "" 90,
         .consume 130000 "u" "" 1, .timerFire 160000 "u",
         .consume 161000 "u" "" 1]).2 = [100, 10, 39, 100] := by
  refine ⟨by decide, by decide, by decide, by decide, by decide⟩

/-- C9 (amended): the local store destroys a bucket via a one-shot timer
installed at creation time (`timerAt = creation + 60000`); when that timer
fires it deletes the key's bucket unconditionally — regardless of how
recently the bucket was touched — while other keys are unaffected. -/
theorem C9_amended (key k' : String) (s : LocalState) (hne : k' ≠ key) :
    alookup key (bucketTimerFire key s).buckets = none ∧
    alookup k' (bucketTimerFire key s).buckets = alookup k' s.buckets := by
  constructor
  · unfold bucketTimerFire
    cases h : alookup key s.buckets with
    | none => simp [h]
    | some b => simp [h, alookup_aerase_self]
  · unfold bucketTimerFire
    cases h : alookup key s.buckets with
    | none => simp [h]
    | some b => simp [h, alookup_aerase_ne hne]

/-- C9 amended witness: firing the timer for `"u"` on a concrete state with
buckets for `"u"` and `"v"` removes `"u"` and leaves `"v"` alone. -/
theorem C9_amended_witness :
    alookup "u" (bucketTimerFire "u"
      ⟨[("u", ⟨39, 130000, 160000⟩), ("v", ⟨7, 100, 60100⟩)], []⟩).buckets = none ∧
    alookup "v" (bucketTimerFire "u"
      ⟨[("u", ⟨39, 130000, 160000⟩), ("v", ⟨7, 100, 60100⟩)], []⟩).buckets =
      alookup "v" (⟨[("u", ⟨39, 130000, 160000⟩), ("v", ⟨7, 100, 60100⟩)],
        []⟩ : LocalState).buckets :=
  C9_amended "u" "v"
    ⟨[("u", ⟨39, 130000, 160000⟩), ("v", ⟨7, 100, 60100⟩)], []⟩ (by decide)

end TokenBucket
